import Mathlib

/-!
Shallow embedding of the khan-academy-course-extractor pipeline
(src/khan-academy-extractor): the JSON value model used by the extractors,
the flat-record data model (models.rs), the tree walk (json_operations.rs
extract_course / extractors.rs extract_info, duplicated in main.rs), the
base64 key decoder (extractors.rs decode_base64 and the delimiter scraping
in extract_quiz_attempts / extract_unit_test_attempts), and the CSV update
engine (csv_operations.rs update_record / update_csv, duplicated in
main.rs).  Rust `Result` is modelled by `Except`; a reachable panic
(`Option::unwrap` on `None`, out-of-range slice) is modelled by the
distinguished error `RustErr.panicked`; u32 arithmetic is modelled on `Nat`
with explicit wrap-around modulo 2^32 where the source can overflow
(release-profile semantics).  File reading, JSON text parsing and CSV
serialization are the out-of-scope primitives of spec section 1; the CSV
writer is modelled by the list of rows appended to it, in order.
-/

namespace Khan

/-- Model of `serde_json::Value` (only the shapes the extractors use). -/
inductive Json where
  | null
  | bool (b : Bool)
  | num (n : Int)
  | str (s : String)
  | arr (elems : List Json)
  | obj (fields : List (String × Json))
deriving Repr

/-- Model of `value[key]` (serde_json `Index` for `&str`): field lookup on an
object, `Null` when the key is absent or the value is not an object. -/
def Json.index (j : Json) (key : String) : Json :=
  match j with
  | .obj fields =>
    match fields.find? (fun f => f.1 == key) with
    | some f => f.2
    | none => .null
  | _ => .null

/-- Model of `Value::as_str`. -/
def Json.asStr : Json → Option String
  | .str s => some s
  | _ => none

/-- Model of `Value::as_array`. -/
def Json.asArr : Json → Option (List Json)
  | .arr xs => some xs
  | _ => none

/-- Model of `value == "literal"` (serde_json `PartialEq<&str>`): true exactly
when the value is a string equal to the literal. -/
def Json.eqStr (j : Json) (s : String) : Bool :=
  match j with
  | .str t => t == s
  | _ => false

/-- One step of `Value::pointer`: object key lookup, or array indexing when
the token is a canonical decimal index (no leading zero). -/
def Json.pointerStep (j : Json) (token : String) : Option Json :=
  match j with
  | .obj fields =>
    match fields.find? (fun f => f.1 == token) with
    | some f => some f.2
    | none => none
  | .arr xs =>
    if token.length > 1 && token.front == '0' then none
    else
      match token.toNat? with
      | some i => xs[i]?
      | none => none
  | _ => none

/-- Model of `Value::pointer` over an already-split path (the pointer strings
used by the extractors contain no `~` escapes). -/
def Json.pointerPath (j : Json) : List String → Option Json
  | [] => some j
  | t :: ts =>
    match j.pointerStep t with
    | some j2 => j2.pointerPath ts
    | none => none

/-- Model of `error.rs AppError`.  The payloads of `io`, `json` and `csv` are
the formatted error messages (abstracted). -/
inductive AppError where
  | io (msg : String)
  | json (msg : String)
  | csv (msg : String)
  | missingField (field : String)
  | missingFile (name : String)
deriving Repr, DecidableEq

/-- A Rust-level outcome: an ordinary `AppError` propagated with `?`, or a
panic (which aborts the process and is never an error value). -/
inductive RustErr where
  | app (e : AppError)
  | panicked
deriving Repr, DecidableEq

/-- Lifts a fallible call returning `AppError` into the panic-aware monad
(models the `?` operator inside code that can also panic). -/
def liftApp {α : Type} : Except AppError α → Except RustErr α
  | .ok a => .ok a
  | .error e => .error (.app e)

/-- Model of `models.rs MasteryV2` (u32 fields). -/
structure MasteryV2 where
  percentage : Nat
  points_earned : Nat
deriving Repr, DecidableEq

/-- Model of `models.rs MasteryMapItem`. -/
structure MasteryMapItem where
  progress_key : String
  status : String
deriving Repr, DecidableEq

/-- Model of `models.rs UnitProgress`. -/
structure UnitProgress where
  current_mastery_v2 : MasteryV2
  unit_id : String
deriving Repr, DecidableEq

/-- Model of `models.rs BestScore` (optional u32 fields). -/
structure BestScore where
  completed_date : Option String
  num_attempted : Option Nat
  num_correct : Option Nat
deriving Repr, DecidableEq

/-- Model of `models.rs Content`. -/
structure Content where
  type_name : String
  id : String
  progress_key : String
deriving Repr, DecidableEq

/-- Model of `models.rs ContentItemProgress`. -/
structure ContentItemProgress where
  type_name : String
  best_score : Option BestScore
  completion_status : String
  content : Content
deriving Repr, DecidableEq

/-- Model of `models.rs TopicQuizAttempt` (`parent_id` is serde-skipped and
filled in by the extractor after decoding `position_key`). -/
structure TopicQuizAttempt where
  type_name : String
  is_completed : Bool
  num_attempted : Nat
  num_correct : Nat
  position_key : String
  parent_id : String
deriving Repr, DecidableEq

/-- Model of `models.rs TopicUnitTestAttempt` (`parent_id` is serde-skipped
and filled in by the extractor after decoding `id`). -/
structure TopicUnitTestAttempt where
  type_name : String
  id : String
  is_completed : Bool
  num_attempted : Nat
  num_correct : Nat
  parent_id : String
deriving Repr, DecidableEq

/-- Model of `models.rs DataStruct`, one flat record / CSV row. -/
structure DataStruct where
  id : String
  type_name : String
  order : Nat
  title : String
  slug : String
  relative_url : String
  progress_key : Option String
  parent_topic : Option String
  parent_id : Option String
  parent_type : Option String
  parent_title : Option String
  parent_slug : Option String
  parent_relative_url : Option String
  percentage : Option String
  points_earned : Option String
  status : Option String
  completion_status : Option String
  num_attempted : Option String
  num_correct : Option String
  num_incorrect : Option String
deriving Repr, DecidableEq

/-- The `item[field].as_str().ok_or_else(MissingField)?` pattern of
`extract_info`. -/
def getStrField (item : Json) (key : String) : Except AppError String :=
  match (item.index key).asStr with
  | some s => .ok s
  | none => .error (.missingField key)

/-- Model of `extractors.rs extract_info` (identical copy in main.rs):
builds a `DataStruct` from a JSON node, its optional parent record and the
1-based sibling order passed by the caller. -/
def extract_info (item : Json) (parent : Option DataStruct) (order : Nat) :
    Except AppError DataStruct :=
  match getStrField item "id" with
  | .error e => .error e
  | .ok id =>
  match getStrField item "__typename" with
  | .error e => .error e
  | .ok type_name =>
  match getStrField item "translatedTitle" with
  | .error e => .error e
  | .ok title =>
  match getStrField item "slug" with
  | .error e => .error e
  | .ok slug =>
  match (match (item.index "relativeUrl").asStr with
         | some s => some s
         | none => (item.index "urlWithinCurationNode").asStr) with
  | none => .error (.missingField "relativeUrl or urlWithinCurationNode")
  | some relative_url =>
  Except.ok
    { id := id
      type_name := type_name
      order := order
      title := title
      slug := slug
      relative_url := relative_url
      progress_key := (item.index "progressKey").asStr
      parent_topic :=
        match ((item.index "parentTopic").index "id").asStr with
        | some s => some s
        | none => some ""
      parent_id := parent.map (fun p => p.id)
      parent_type := parent.map (fun p => p.type_name)
      parent_title := parent.map (fun p => p.title)
      parent_slug := parent.map (fun p => p.slug)
      parent_relative_url := parent.map (fun p => p.relative_url)
      percentage := none
      points_earned := none
      status := none
      completion_status := none
      num_attempted := none
      num_correct := none
      num_incorrect := none }

/-- Output of a tree-walk fragment: the records appended to the CSV writer so
far (in append order) and the error, if any, that aborted the walk.  `none`
means the fragment completed. -/
abbrev WalkOut := List DataStruct × Option AppError

/-- Translation of a `for (i, x) in xs.iter().enumerate()` loop whose body
appends rows and propagates errors with `?`: the body receives the 1-based
order `k + i` (callers start at `k = 1`, matching `(i + 1) as u32` in the
source); on the first failing iteration the rows appended so far are kept
and the error aborts the loop. -/
def walkList (body : Json → Nat → WalkOut) : List Json → Nat → WalkOut
  | [], _ => ([], none)
  | x :: xs, k =>
    match body x k with
    | (rows, some e) => (rows, some e)
    | (rows, none) =>
      match walkList body xs (k + 1) with
      | (rest, e) => (rows ++ rest, e)

/-- Loop body for the `contents` loop of `extract_course`: extract the
content-item record (parent = the lesson record) and append it. -/
def contentBody (lessonInfo : DataStruct) (content : Json) (order : Nat) : WalkOut :=
  match extract_info content (some lessonInfo) order with
  | .error e => ([], some e)
  | .ok info => ([info], none)

/-- Loop body for the `lessons` loop of `extract_course`: extract and append
the lesson-like record, then, only when `__typename` is exactly `"Lesson"`,
require `curatedChildren` to be an array and walk it. -/
def lessonBody (unitInfo : DataStruct) (lesson : Json) (order : Nat) : WalkOut :=
  match extract_info lesson (some unitInfo) order with
  | .error e => ([], some e)
  | .ok linfo =>
    if (lesson.index "__typename").eqStr "Lesson" then
      match (lesson.index "curatedChildren").asArr with
      | none => ([linfo], some (.missingField "curatedChildren"))
      | some contents =>
        match walkList (contentBody linfo) contents 1 with
        | (rows, e) => (linfo :: rows, e)
    else ([linfo], none)

/-- Loop body for the `units` loop of `extract_course`: extract and append
the unit record, require `allOrderedChildren` to be an array, walk it. -/
def unitBody (courseInfo : DataStruct) (unit : Json) (order : Nat) : WalkOut :=
  match extract_info unit (some courseInfo) order with
  | .error e => ([], some e)
  | .ok uinfo =>
    match (unit.index "allOrderedChildren").asArr with
    | none => ([uinfo], some (.missingField "allOrderedChildren"))
    | some lessons =>
      match walkList (lessonBody uinfo) lessons 1 with
      | (rows, e) => (uinfo :: rows, e)

/-- Model of `json_operations.rs extract_course` (identical copy in main.rs).
The first component is the sequence of records handed to the CSV writer, in
append order; the csv writer flushes its buffer when dropped, so on an error
these rows still reach the output file while main.rs propagates the error. -/
def extract_course (course : Json) : WalkOut :=
  match extract_info course none 1 with
  | .error e => ([], some e)
  | .ok cinfo =>
    match (course.index "unitChildren").asArr with
    | none => ([cinfo], some (.missingField "unitChildren"))
    | some units =>
      match walkList (unitBody cinfo) units 1 with
      | (rows, e) => (cinfo :: rows, e)

/-- Value of one character in the standard base64 alphabet
(`base64::engine::general_purpose::STANDARD`). -/
def b64Index (c : Char) : Option Nat :=
  if 65 ≤ c.toNat && c.toNat ≤ 90 then some (c.toNat - 65)
  else if 97 ≤ c.toNat && c.toNat ≤ 122 then some (c.toNat - 71)
  else if 48 ≤ c.toNat && c.toNat ≤ 57 then some (c.toNat + 4)
  else if c.toNat == 43 then some 62
  else if c.toNat == 47 then some 63
  else none

/-- Decodes base64 four characters at a time, with the STANDARD engine's
checks: canonical `=` padding only in the final group, and rejection of
non-zero trailing bits (`decode_allow_trailing_bits = false`).  `none` models
a `base64::DecodeError`, including an input length that is not a multiple
of four. -/
def decodeB64Groups : List Char → Option (List Nat)
  | [] => some []
  | a :: b :: c :: d :: rest =>
    match b64Index a, b64Index b with
    | some va, some vb =>
      match rest with
      | [] =>
        if c == '=' then
          if d == '=' then
            if vb % 16 == 0 then some [va * 4 + vb / 16] else none
          else none
        else
          match b64Index c with
          | some vc =>
            if d == '=' then
              if vc % 4 == 0 then some [va * 4 + vb / 16, vb % 16 * 16 + vc / 4]
              else none
            else
              match b64Index d with
              | some vd => some [va * 4 + vb / 16, vb % 16 * 16 + vc / 4, vc % 4 * 64 + vd]
              | none => none
          | none => none
      | _ :: _ =>
        match b64Index c, b64Index d with
        | some vc, some vd =>
          match decodeB64Groups rest with
          | some tail =>
            some ((va * 4 + vb / 16) :: (vb % 16 * 16 + vc / 4) :: (vc % 4 * 64 + vd) :: tail)
          | none => none
        | _, _ => none
    | _, _ => none
  | _ => none

/-- True for a UTF-8 continuation byte `0x80..0xBF`. -/
def isCont (b : Nat) : Bool := 128 ≤ b && b ≤ 191

/-- The replacement character U+FFFD. -/
def repl : Char := Char.ofNat 0xFFFD

/-- Fuel-indexed worker for `utf8Lossy`.  Each step consumes at least one
byte, so fuel equal to the byte count never runs out (the `0` branch with a
non-empty list is unreachable); the fuel only makes the recursion
structural. -/
def utf8LossyFuel : Nat → List Nat → List Char
  | _, [] => []
  | 0, _ :: _ => []
  | fuel + 1, b :: rest =>
    if b < 128 then Char.ofNat b :: utf8LossyFuel fuel rest
    else if 194 ≤ b && b ≤ 223 then
      match rest with
      | c1 :: rest2 =>
        if isCont c1 then Char.ofNat ((b - 192) * 64 + (c1 - 128)) :: utf8LossyFuel fuel rest2
        else repl :: utf8LossyFuel fuel rest
      | [] => [repl]
    else if 224 ≤ b && b ≤ 239 then
      match rest with
      | c1 :: rest2 =>
        if (if b == 224 then 160 ≤ c1 && c1 ≤ 191
            else if b == 237 then 128 ≤ c1 && c1 ≤ 159
            else isCont c1) then
          match rest2 with
          | c2 :: rest3 =>
            if isCont c2 then
              Char.ofNat ((b - 224) * 4096 + (c1 - 128) * 64 + (c2 - 128)) ::
                utf8LossyFuel fuel rest3
            else repl :: utf8LossyFuel fuel rest2
          | [] => [repl]
        else repl :: utf8LossyFuel fuel rest
      | [] => [repl]
    else if 240 ≤ b && b ≤ 244 then
      match rest with
      | c1 :: rest2 =>
        if (if b == 240 then 144 ≤ c1 && c1 ≤ 191
            else if b == 244 then 128 ≤ c1 && c1 ≤ 143
            else isCont c1) then
          match rest2 with
          | c2 :: rest3 =>
            if isCont c2 then
              match rest3 with
              | c3 :: rest4 =>
                if isCont c3 then
                  Char.ofNat ((b - 240) * 262144 + (c1 - 128) * 4096 +
                    (c2 - 128) * 64 + (c3 - 128)) :: utf8LossyFuel fuel rest4
                else repl :: utf8LossyFuel fuel rest3
              | [] => [repl]
            else repl :: utf8LossyFuel fuel rest2
          | [] => [repl]
        else repl :: utf8LossyFuel fuel rest
      | [] => [repl]
    else repl :: utf8LossyFuel fuel rest

/-- Model of `String::from_utf8_lossy`: strict UTF-8 decoding where each
maximal invalid subpart is replaced by one U+FFFD, as Rust's lossy decoder
does.  The range checks on the first continuation byte exclude overlong
forms, surrogates and values above U+10FFFF, so every emitted scalar value
is valid. -/
def utf8Lossy (bytes : List Nat) : List Char :=
  utf8LossyFuel bytes.length bytes

/-- Model of `extractors.rs decode_base64` (identical copy in main.rs): pad
the token with `=` until its byte length is a multiple of four (the closed
form of the `while key.len() % 4 != 0` loop), base64-decode it, and decode
the bytes as UTF-8, lossily.  The `json` payload abstracts the formatted
`Base64 decode error: ...` message built with `serde_json::Error::custom`. -/
def decode_base64 (position_key : String) : Except AppError (List Char) :=
  let padded :=
    position_key.data ++ List.replicate ((4 - position_key.utf8ByteSize % 4) % 4) '='
  match decodeB64Groups padded with
  | none => .error (.json "Base64 decode error")
  | some bytes => .ok (utf8Lossy bytes)

/-- Model of `str::find(char)`: position of the first occurrence.  The source
works with byte offsets; since both delimiters searched for are one-byte
characters, the character-position model extracts the same substring and
panics in the same cases. -/
def strFind (s : List Char) (c : Char) : Option Nat :=
  s.findIdx? (fun x => x == c)

/-- Model of `s[a..b]` on the character-position model: the characters from
position `a` (inclusive) to `b` (exclusive). -/
def sliceBetween (s : List Char) (a b : Nat) : List Char :=
  (s.take b).drop a

/-- The quiz-attempt parent-id scraping of `extract_quiz_attempts`:
`decoded[find(U+0011).unwrap() + 1 .. find(U+000C).unwrap()]`.  A missing
delimiter makes `unwrap` panic; U+000C occurring before U+0011 makes the
slice range panic. -/
def quizParentId (decoded : List Char) : Except RustErr String :=
  match strFind decoded (Char.ofNat 0x11), strFind decoded (Char.ofNat 0x0C) with
  | some i, some j =>
    if i + 1 ≤ j then .ok (String.mk (sliceBetween decoded (i + 1) j))
    else .error .panicked
  | _, _ => .error .panicked

/-- The unit-test parent-id scraping of `extract_unit_test_attempts`:
`decoded[find(':').unwrap() + 1 .. find(U+000C).unwrap()]`. -/
def testParentId (decoded : List Char) : Except RustErr String :=
  match strFind decoded ':', strFind decoded (Char.ofNat 0x0C) with
  | some i, some j =>
    if i + 1 ≤ j then .ok (String.mk (sliceBetween decoded (i + 1) j))
    else .error .panicked
  | _, _ => .error .panicked

/-- Decoding of one quiz attempt key, as performed inside the
`extract_quiz_attempts` loop: `decode_base64` (errors propagate with `?`)
followed by the delimiter scraping. -/
def extractQuizParent (position_key : String) : Except RustErr String :=
  match decode_base64 position_key with
  | .error e => .error (.app e)
  | .ok decoded => quizParentId decoded

/-- Decoding of one unit-test attempt key, as performed inside the
`extract_unit_test_attempts` loop. -/
def extractTestParent (key : String) : Except RustErr String :=
  match decode_base64 key with
  | .error e => .error (.app e)
  | .ok decoded => testParentId decoded

/-- Serde deserialization of a JSON value into a `u32` (a non-negative
integer fitting 32 bits). -/
def Json.asU32 : Json → Option Nat
  | .num n => if 0 ≤ n ∧ n < 4294967296 then some n.toNat else none
  | _ => none

/-- Serde deserialization of a JSON value into a `bool`. -/
def Json.asBool : Json → Option Bool
  | .bool b => some b
  | _ => none

/-- Serde deserialization of `TopicQuizAttempt` (derive(Deserialize)):
required fields `__typename`, `isCompleted`, `numAttempted`, `numCorrect`,
`positionKey`; `parent_id` is skipped and defaulted to the empty string;
unknown fields are ignored.  The `json` payload abstracts serde's message. -/
def parseTopicQuizAttempt (j : Json) : Except AppError TopicQuizAttempt :=
  match (j.index "__typename").asStr, (j.index "isCompleted").asBool,
      (j.index "numAttempted").asU32, (j.index "numCorrect").asU32,
      (j.index "positionKey").asStr with
  | some tn, some ic, some na, some nc, some pk =>
    .ok { type_name := tn, is_completed := ic, num_attempted := na,
          num_correct := nc, position_key := pk, parent_id := "" }
  | _, _, _, _, _ => .error (.json "invalid TopicQuizAttempt")

/-- Serde deserialization of `TopicUnitTestAttempt` (derive(Deserialize)):
required fields `__typename`, `id`, `isCompleted`, `numAttempted`,
`numCorrect`; `parent_id` is skipped and defaulted. -/
def parseTopicUnitTestAttempt (j : Json) : Except AppError TopicUnitTestAttempt :=
  match (j.index "__typename").asStr, (j.index "id").asStr,
      (j.index "isCompleted").asBool, (j.index "numAttempted").asU32,
      (j.index "numCorrect").asU32 with
  | some tn, some i, some ic, some na, some nc =>
    .ok { type_name := tn, id := i, is_completed := ic, num_attempted := na,
          num_correct := nc, parent_id := "" }
  | _, _, _, _, _ => .error (.json "invalid TopicUnitTestAttempt")

/-- Model of `extractors.rs extract_quiz_attempts` (identical copy in
main.rs), taking the already-parsed document (the `serde_json::from_str`
text-parsing primitive is out of scope).  When the pointer
`/data/user/latestQuizAttempts` resolves to no value or to a non-array, the
`unwrap_or_else(|| Ok(vec![]))` yields an empty list; otherwise each element
is deserialized and its `parent_id` is recovered from `position_key`. -/
def extract_quiz_attempts (parsed : Json) : Except RustErr (List TopicQuizAttempt) :=
  match (parsed.pointerPath ["data", "user", "latestQuizAttempts"]).bind Json.asArr with
  | none => .ok []
  | some items =>
    items.mapM (fun item => do
      let qa ← liftApp (parseTopicQuizAttempt item)
      let pid ← extractQuizParent qa.position_key
      pure { qa with parent_id := pid })

/-- Model of `extractors.rs extract_unit_test_attempts` (identical copy in
main.rs): same shape as `extract_quiz_attempts`, with pointer
`/data/user/latestUnitTestAttempts` and the parent id recovered from the
attempt's `id`. -/
def extract_unit_test_attempts (parsed : Json) :
    Except RustErr (List TopicUnitTestAttempt) :=
  match (parsed.pointerPath ["data", "user", "latestUnitTestAttempts"]).bind Json.asArr with
  | none => .ok []
  | some items =>
    items.mapM (fun item => do
      let ta ← liftApp (parseTopicUnitTestAttempt item)
      let pid ← extractTestParent ta.id
      pure { ta with parent_id := pid })

/-- A CSV row (`csv::StringRecord`): the list of its fields. -/
abbrev Row := List String

/-- Wrapping u32 subtraction: the release-profile semantics of `a - b` on
`u32` (two's complement wrap-around; a debug build panics instead when
`b > a`).  For `a, b < 2^32` with `b ≤ a` this is plain subtraction. -/
def u32Sub (a b : Nat) : Nat := (a + 4294967296 - b) % 4294967296

/-- Model of `csv_operations.rs update_record` (identical copy in main.rs):
for each index `i` in `0..record.len()` take the value of the first update
instruction whose index equals `i`, else `record.get(i)` with an
out-of-bounds `MissingField` error (instructions whose index is outside
`0..record.len()` are never consulted by the loop). -/
def update_record (record : Row) (updates : List (Nat × String)) :
    Except AppError Row :=
  (List.range record.length).mapM (fun i =>
    match updates.find? (fun u => u.1 == i) with
    | some u => Except.ok u.2
    | none =>
      match record[i]? with
      | some s => Except.ok s
      | none => Except.error (.missingField ("Record index " ++ toString i)))

/-- Model of `record.get(i).unwrap()` inside the row-matching closures of
`update_csv`: panics when the row has at most `i` fields. -/
def getU (r : Row) (i : Nat) : Except RustErr String :=
  match r[i]? with
  | some s => .ok s
  | none => .error .panicked

/-- Model of `records.iter_mut().find(predicate)`: scans rows left to right,
stops at the first row on which the predicate holds, and returns it with its
index; a panic inside the predicate aborts the scan. -/
def findRow (p : Row → Except RustErr Bool) : List Row → Except RustErr (Option (Nat × Row))
  | [] => .ok none
  | r :: rest =>
    match p r with
    | .error e => .error e
    | .ok true => .ok (some (0, r))
    | .ok false =>
      match findRow p rest with
      | .error e => .error e
      | .ok none => .ok none
      | .ok (some jrow) => .ok (some (jrow.1 + 1, jrow.2))

/-- Common shape of one iteration of the five matching loops of
`update_csv`: find the first row matched by `pred a`; if none, the source
record is silently dropped; otherwise apply `update_record` with the
instructions `upds a` to that row in place. -/
def phaseStepOf {α : Type} (pred : α → Row → Except RustErr Bool)
    (upds : α → List (Nat × String)) (a : α) (rows : List Row) :
    Except RustErr (List Row) :=
  match findRow (pred a) rows with
  | .error e => .error e
  | .ok none => .ok rows
  | .ok (some jrow) =>
    match update_record jrow.2 (upds a) with
    | .error e => .error (.app e)
    | .ok r2 => .ok (rows.set jrow.1 r2)

/-- Translation of a `for x in xs { step }` loop over source records, with
`?`-propagation of errors, threading the row vector. -/
def runPhase {α : Type} (step : α → List Row → Except RustErr (List Row)) :
    List α → List Row → Except RustErr (List Row)
  | [], rows => .ok rows
  | a :: rest, rows =>
    match step a rows with
    | .error e => .error e
    | .ok rows2 => runPhase step rest rows2

/-- Row-matching closure of the mastery-map loop:
`record.get(6).unwrap() == mastery_map_item.progress_key`. -/
def masteryMapPred (m : MasteryMapItem) (r : Row) : Except RustErr Bool :=
  match getU r 6 with
  | .error e => .error e
  | .ok s => .ok (s == m.progress_key)

/-- Update instructions of the mastery-map loop. -/
def masteryMapUpdates (m : MasteryMapItem) : List (Nat × String) :=
  [(15, m.status)]

/-- Row-matching closure of the unit-progress loop:
`record.get(0).unwrap() == unit_progress_item.unit_id`. -/
def unitPred (u : UnitProgress) (r : Row) : Except RustErr Bool :=
  match getU r 0 with
  | .error e => .error e
  | .ok s => .ok (s == u.unit_id)

/-- Update instructions of the unit-progress loop. -/
def unitUpdates (u : UnitProgress) : List (Nat × String) :=
  [(13, toString u.current_mastery_v2.percentage),
   (14, toString u.current_mastery_v2.points_earned)]

/-- Row-matching closure of the content-item loop:
`record.get(6).unwrap() == item_progress.content.progress_key`. -/
def itemPred (it : ContentItemProgress) (r : Row) : Except RustErr Bool :=
  match getU r 6 with
  | .error e => .error e
  | .ok s => .ok (s == it.content.progress_key)

/-- Update instructions of the content-item loop.  The source renders the
optional `u32` scores to strings and computes
`na.parse::<u32>().unwrap() - nc.parse::<u32>().unwrap()`; since
`to_string`/`parse` round-trips on `u32`, the subtraction is modelled
directly on the numbers, with release-profile wrap-around. -/
def itemUpdates (it : ContentItemProgress) : List (Nat × String) :=
  [(16, it.completion_status),
   (17, ((it.best_score.bind (fun bs => bs.num_attempted)).map toString).getD ""),
   (18, ((it.best_score.bind (fun bs => bs.num_correct)).map toString).getD ""),
   (19, (((it.best_score.bind (fun bs => bs.num_attempted)).bind (fun na =>
      (it.best_score.bind (fun bs => bs.num_correct)).map (fun nc =>
        u32Sub na nc))).map toString).getD "")]

/-- Row-matching closure of the quiz-attempt loop:
`record.get(7).unwrap() == quiz_attempt.parent_id && record.get(1).unwrap()
== "TopicQuiz"` (column 7 is `parentTopic`; `&&` short-circuits). -/
def quizPred (a : TopicQuizAttempt) (r : Row) : Except RustErr Bool :=
  match getU r 7 with
  | .error e => .error e
  | .ok s =>
    if s == a.parent_id then
      match getU r 1 with
      | .error e => .error e
      | .ok t => .ok (t == "TopicQuiz")
    else .ok false

/-- Update instructions of the quiz-attempt loop. -/
def quizUpdates (a : TopicQuizAttempt) : List (Nat × String) :=
  [(16, if a.is_completed then "COMPLETE" else "UNCOMPLETED"),
   (17, toString a.num_attempted),
   (18, toString a.num_correct),
   (19, toString (u32Sub a.num_attempted a.num_correct))]

/-- Row-matching closure of the unit-test-attempt loop:
`record.get(8).unwrap() == test_attempt.parent_id && record.get(1).unwrap()
== "TopicUnitTest"` (column 8 is `parentId`). -/
def testPred (a : TopicUnitTestAttempt) (r : Row) : Except RustErr Bool :=
  match getU r 8 with
  | .error e => .error e
  | .ok s =>
    if s == a.parent_id then
      match getU r 1 with
      | .error e => .error e
      | .ok t => .ok (t == "TopicUnitTest")
    else .ok false

/-- Update instructions of the unit-test-attempt loop. -/
def testUpdates (a : TopicUnitTestAttempt) : List (Nat × String) :=
  [(16, if a.is_completed then "COMPLETE" else "UNCOMPLETED"),
   (17, toString a.num_attempted),
   (18, toString a.num_correct),
   (19, toString (u32Sub a.num_attempted a.num_correct))]

/-- One iteration of the mastery-map loop of `update_csv`. -/
def masteryMapStep : MasteryMapItem → List Row → Except RustErr (List Row) :=
  phaseStepOf masteryMapPred masteryMapUpdates

/-- One iteration of the unit-progress loop of `update_csv`. -/
def unitStep : UnitProgress → List Row → Except RustErr (List Row) :=
  phaseStepOf unitPred unitUpdates

/-- One iteration of the inner content-item loop of `update_csv`. -/
def itemStep : ContentItemProgress → List Row → Except RustErr (List Row) :=
  phaseStepOf itemPred itemUpdates

/-- One iteration of the inner quiz-attempt loop of `update_csv`. -/
def quizStep : TopicQuizAttempt → List Row → Except RustErr (List Row) :=
  phaseStepOf quizPred quizUpdates

/-- One iteration of the inner unit-test-attempt loop of `update_csv`. -/
def testStep : TopicUnitTestAttempt → List Row → Except RustErr (List Row) :=
  phaseStepOf testPred testUpdates

/-- The `records.get_mut(0)` block of `update_csv`: writes the overall
mastery into columns 13 and 14 of row 0 when the table has any row. -/
def masteryV2Phase (mastery_v2 : MasteryV2) (records : List Row) :
    Except RustErr (List Row) :=
  match records with
  | [] => .ok []
  | r0 :: rest =>
    match update_record r0
      [(13, toString mastery_v2.percentage),
       (14, toString mastery_v2.points_earned)] with
    | .error e => .error (RustErr.app e)
    | .ok r0n => .ok (r0n :: rest)

/-- Sequencing of two fallible computations: the desugaring of the `?`
operator between the phases of `update_csv`. -/
def andThen {A B : Type} (x : Except RustErr A) (f : A → Except RustErr B) :
    Except RustErr B :=
  match x with
  | .error e => .error e
  | .ok a => f a

/-- Model of `csv_operations.rs update_csv` (identical copy in main.rs),
taking the table already read back from the CSV file (header and data rows;
the csv reader/writer primitives are out of scope).  Applies, in order: the
overall mastery onto row 0 when it exists, then the mastery-map,
unit-progress, content-item (batched), quiz-attempt (batched) and
unit-test-attempt (batched) loops, and returns the header (written back
unchanged from `reader.headers()`) with the updated rows in their original
order. -/
def update_csv (header : Row) (records : List Row) (mastery_v2 : MasteryV2)
    (mastery_map : List MasteryMapItem) (unit_progress : List UnitProgress)
    (items_progresses : List (List ContentItemProgress))
    (quizzes_progresses : List (List TopicQuizAttempt))
    (tests_progresses : List (List TopicUnitTestAttempt)) :
    Except RustErr (Row × List Row) :=
  andThen (masteryV2Phase mastery_v2 records) (fun records1 =>
  andThen (runPhase masteryMapStep mastery_map records1) (fun records2 =>
  andThen (runPhase unitStep unit_progress records2) (fun records3 =>
  andThen (runPhase (runPhase itemStep) items_progresses records3) (fun records4 =>
  andThen (runPhase (runPhase quizStep) quizzes_progresses records4) (fun records5 =>
  andThen (runPhase (runPhase testStep) tests_progresses records5) (fun records6 =>
  .ok (header, records6)))))))

/-! Helper lemmas about `update_record`. -/

lemma mapM_ok {α β E : Type} (f : α → Except E β) (g : α → β) :
    ∀ l : List α, (∀ a ∈ l, f a = .ok (g a)) → l.mapM f = .ok (l.map g) := by
  intro l
  induction l with
  | nil => intro _; simp [List.mapM_nil]; rfl
  | cons a t ih =>
    intro h
    rw [List.mapM_cons, h a (by simp), ih (fun x hx => h x (by simp [hx]))]
    rfl

/-- The row produced by a successful `update_record`: per index, the value of
the first matching instruction, else the old field. -/
def applyUpdates (record : Row) (updates : List (Nat × String)) : Row :=
  (List.range record.length).map (fun i =>
    match updates.find? (fun u => u.1 == i) with
    | some u => u.2
    | none => record.getD i "")

lemma update_record_eq (record : Row) (updates : List (Nat × String)) :
    update_record record updates = .ok (applyUpdates record updates) := by
  unfold update_record applyUpdates
  apply mapM_ok
  intro i hi
  have hlt : i < record.length := List.mem_range.mp hi
  cases hfind : updates.find? (fun u => u.1 == i) with
  | some u => simp [hfind]
  | none =>
    simp [hfind, List.getElem?_eq_getElem hlt, List.getD_eq_getElem?_getD]

lemma applyUpdates_length (record : Row) (updates : List (Nat × String)) :
    (applyUpdates record updates).length = record.length := by
  simp [applyUpdates]

lemma applyUpdates_getElem? (record : Row) (updates : List (Nat × String)) (i : Nat) :
    (applyUpdates record updates)[i]? =
      if i < record.length then
        some (match updates.find? (fun u => u.1 == i) with
          | some u => u.2
          | none => record.getD i "")
      else none := by
  by_cases h : i < record.length
  · rw [applyUpdates, List.getElem?_map, List.getElem?_range h]
    simp [h]
  · rw [if_neg h]
    apply List.getElem?_eq_none
    rw [applyUpdates_length]
    omega

lemma applyUpdates_frame (record : Row) (updates : List (Nat × String)) (i : Nat)
    (h : updates.find? (fun u => u.1 == i) = none) :
    (applyUpdates record updates)[i]? = record[i]? := by
  rw [applyUpdates_getElem?]
  by_cases hlt : i < record.length
  · simp [hlt, h, List.getD_eq_getElem?_getD, List.getElem?_eq_getElem hlt]
  · rw [if_neg hlt]
    exact (List.getElem?_eq_none (by omega)).symm

lemma applyUpdates_hit (record : Row) (updates : List (Nat × String)) (i : Nat)
    (hlt : i < record.length) (u : Nat × String)
    (h : updates.find? (fun v => v.1 == i) = some u) :
    (applyUpdates record updates)[i]? = some u.2 := by
  rw [applyUpdates_getElem?, if_pos hlt, h]

/-- C4: `update_record` on a 2-field row with an instruction for column 5
returns success with the row unchanged — the out-of-bounds instruction is
silently ignored (the loop runs only over `0..record.len()`, so the
`MissingField` branch promised by the function's own documentation is
unreachable).  The claimed column-index error is never produced. -/
theorem c4_out_of_range_instruction_ignored :
    update_record ["a", "b"] [(5, "x")] = .ok ["a", "b"] := by
  rfl

/-! Claims about the key decoder and the attempt extractors. -/

/-- C2 counterexample: `"QUJD"` is valid base64 and decodes to `"ABC"`, which
contains no U+0011 delimiter; the quiz parent-id extraction panics
(`Option::unwrap` on the result of `find`) instead of returning a
`DecodeError` as an ordinary error value. -/
theorem c2_missing_delimiter_panics :
    decode_base64 "QUJD" = .ok ['A', 'B', 'C'] ∧
    extractQuizParent "QUJD" = .error .panicked := by
  exact ⟨rfl, rfl⟩

/-- C2 (amended): when the token is not valid base64 after `=`-padding, key
decoding fails with the `DecodeError` as an ordinary error value, for both
attempt kinds; but when the decoded string is missing a delimiter (no
U+0011 for quiz attempts, no `:` for unit-test attempts, or no U+000C for
either), the extraction panics instead of returning an error value. -/
theorem c2_decode_error_vs_panic (token : String) :
    (∀ e, decode_base64 token = .error e →
      extractQuizParent token = .error (.app e) ∧
      extractTestParent token = .error (.app e)) ∧
    (∀ s, decode_base64 token = .ok s →
      strFind s (Char.ofNat 0x11) = none ∨ strFind s (Char.ofNat 0x0C) = none →
      extractQuizParent token = .error .panicked) ∧
    (∀ s, decode_base64 token = .ok s →
      strFind s ':' = none ∨ strFind s (Char.ofNat 0x0C) = none →
      extractTestParent token = .error .panicked) := by
  refine ⟨?_, ?_, ?_⟩
  · intro e h
    constructor <;> simp [extractQuizParent, extractTestParent, h]
  · intro s h hdelim
    simp only [extractQuizParent, h]
    rcases hdelim with h1 | h2
    · cases h0C : strFind s (Char.ofNat 0x0C) <;> simp [quizParentId, h1, h0C]
    · cases h11 : strFind s (Char.ofNat 0x11) <;> simp [quizParentId, h2, h11]
  · intro s h hdelim
    simp only [extractTestParent, h]
    rcases hdelim with h1 | h2
    · cases h0C : strFind s (Char.ofNat 0x0C) <;> simp [testParentId, h1, h0C]
    · cases hcolon : strFind s ':' <;> simp [testParentId, h2, hcolon]

/-- Witness for C2 (amended): the token `"A!"` is rejected by the base64
engine and the error is an ordinary error value for both attempt kinds; the
valid token `"QUJD"` decodes to `"ABC"`, which lacks the U+0011 delimiter,
and extraction panics. -/
theorem c2_decode_error_vs_panic_witness :
    extractQuizParent "A!" = .error (.app (.json "Base64 decode error")) ∧
    extractTestParent "A!" = .error (.app (.json "Base64 decode error")) ∧
    extractQuizParent "QUJD" = .error .panicked := by
  refine ⟨((c2_decode_error_vs_panic "A!").1 _ rfl).1,
    ((c2_decode_error_vs_panic "A!").1 _ rfl).2,
    (c2_decode_error_vs_panic "QUJD").2.1 ['A', 'B', 'C'] rfl (Or.inl rfl)⟩

/-- A document with a `/data/user` object that carries no attempt arrays. -/
def demoNoAttempts : Json :=
  Json.obj [("data", Json.obj [("user", Json.obj [("other", Json.num 1)])])]

/-- C10: when `/data/user/latestQuizAttempts` (respectively
`/data/user/latestUnitTestAttempts`) resolves to nothing or to a non-array,
the corresponding extractor succeeds with the empty list instead of
erroring. -/
theorem c10_missing_attempts_section_empty (doc : Json) :
    ((doc.pointerPath ["data", "user", "latestQuizAttempts"]).bind Json.asArr = none →
      extract_quiz_attempts doc = .ok []) ∧
    ((doc.pointerPath ["data", "user", "latestUnitTestAttempts"]).bind Json.asArr = none →
      extract_unit_test_attempts doc = .ok []) := by
  constructor
  · intro h
    simp [extract_quiz_attempts, h]
  · intro h
    simp [extract_unit_test_attempts, h]

/-- Witness for C10 at a concrete document whose user object has no attempt
arrays. -/
theorem c10_missing_attempts_section_empty_witness :
    extract_quiz_attempts demoNoAttempts = .ok [] ∧
    extract_unit_test_attempts demoNoAttempts = .ok [] := by
  exact ⟨(c10_missing_attempts_section_empty demoNoAttempts).1 rfl,
    (c10_missing_attempts_section_empty demoNoAttempts).2 rfl⟩

/-! Helper lemmas about row matching and the phase steps. -/

/-- The cell of `rows` at row `j`, column `i`, when both exist. -/
def cellAt (rows : List Row) (j i : Nat) : Option String :=
  (rows[j]?).bind (fun r => r[i]?)

lemma findRow_ok_none {p : Row → Except RustErr Bool} :
    ∀ {rows : List Row}, findRow p rows = .ok none → ∀ r ∈ rows, p r = .ok false := by
  intro rows
  induction rows with
  | nil => intro _ r hr; cases hr
  | cons x rest ih =>
    intro h r hr
    cases hp : p x with
    | error e => simp [findRow, hp] at h
    | ok b =>
      cases b with
      | true => simp [findRow, hp] at h
      | false =>
        cases hrec : findRow p rest with
        | error e => simp [findRow, hp, hrec] at h
        | ok o =>
          cases o with
          | none =>
            rcases List.mem_cons.mp hr with rfl | hmem
            · exact hp
            · exact ih hrec r hmem
          | some jr => simp [findRow, hp, hrec] at h

lemma findRow_ok_some {p : Row → Except RustErr Bool} :
    ∀ {rows : List Row} {j : Nat} {r : Row}, findRow p rows = .ok (some (j, r)) →
      rows[j]? = some r ∧ p r = .ok true ∧
      ∀ i, i < j → ∃ ri, rows[i]? = some ri ∧ p ri = .ok false := by
  intro rows
  induction rows with
  | nil => intro j r h; simp [findRow] at h
  | cons x rest ih =>
    intro j r h
    cases hp : p x with
    | error e => simp [findRow, hp] at h
    | ok b =>
      cases b with
      | true =>
        simp [findRow, hp] at h
        obtain ⟨hj, hr⟩ := h
        subst hj
        subst hr
        exact ⟨by simp, hp, fun i hi => absurd hi (by omega)⟩
      | false =>
        cases hrec : findRow p rest with
        | error e => simp [findRow, hp, hrec] at h
        | ok o =>
          cases o with
          | none => simp [findRow, hp, hrec] at h
          | some jr =>
            obtain ⟨j2, r2⟩ := jr
            simp [findRow, hp, hrec] at h
            obtain ⟨hj, hr⟩ := h
            subst hj
            subst hr
            obtain ⟨g1, g2, g3⟩ := ih (j := j2) (r := r2) hrec
            refine ⟨by simpa using g1, g2, ?_⟩
            intro i hi
            cases i with
            | zero => exact ⟨x, by simp, hp⟩
            | succ i2 =>
              obtain ⟨ri, hri, hpri⟩ := g3 i2 (by omega)
              exact ⟨ri, by simpa using hri, hpri⟩

lemma phaseStep_not_found {α : Type} {pred : α → Row → Except RustErr Bool}
    {upds : α → List (Nat × String)} {a : α} {rows rows2 : List Row}
    (h : phaseStepOf pred upds a rows = .ok rows2)
    (hf : findRow (pred a) rows = .ok none) : rows2 = rows := by
  unfold phaseStepOf at h
  rw [hf] at h
  exact (Except.ok.inj h).symm

lemma phaseStep_eq {α : Type} (pred : α → Row → Except RustErr Bool)
    (upds : α → List (Nat × String)) (a : α) (rows : List Row) (j : Nat) (r : Row)
    (hf : findRow (pred a) rows = .ok (some (j, r))) :
    phaseStepOf pred upds a rows = .ok (rows.set j (applyUpdates r (upds a))) := by
  unfold phaseStepOf
  rw [hf]
  show (match update_record r (upds a) with
    | Except.error e => Except.error (RustErr.app e)
    | Except.ok r2 => Except.ok (rows.set j r2)) =
    Except.ok (rows.set j (applyUpdates r (upds a)))
  rw [update_record_eq]

lemma phaseStep_found {α : Type} {pred : α → Row → Except RustErr Bool}
    {upds : α → List (Nat × String)} {a : α} {rows rows2 : List Row} {j : Nat} {r : Row}
    (h : phaseStepOf pred upds a rows = .ok rows2)
    (hf : findRow (pred a) rows = .ok (some (j, r))) :
    rows2 = rows.set j (applyUpdates r (upds a)) := by
  rw [phaseStep_eq pred upds a rows j r hf] at h
  exact (Except.ok.inj h).symm

lemma phaseStep_cases {α : Type} {pred : α → Row → Except RustErr Bool}
    {upds : α → List (Nat × String)} {a : α} {rows rows2 : List Row}
    (h : phaseStepOf pred upds a rows = .ok rows2) :
    (findRow (pred a) rows = .ok none ∧ rows2 = rows) ∨
    ∃ j r, findRow (pred a) rows = .ok (some (j, r)) ∧
      rows2 = rows.set j (applyUpdates r (upds a)) := by
  cases hf : findRow (pred a) rows with
  | error e => unfold phaseStepOf at h; rw [hf] at h; cases h
  | ok o =>
    cases o with
    | none => exact Or.inl ⟨rfl, phaseStep_not_found h hf⟩
    | some jr =>
      obtain ⟨j2, r2⟩ := jr
      exact Or.inr ⟨j2, r2, rfl, phaseStep_found h hf⟩

lemma masteryMapPred_true_iff (m : MasteryMapItem) (r : Row) :
    masteryMapPred m r = .ok true ↔ r[6]? = some m.progress_key := by
  unfold masteryMapPred getU
  cases h : r[6]? <;> simp [h]

lemma unitPred_true_iff (u : UnitProgress) (r : Row) :
    unitPred u r = .ok true ↔ r[0]? = some u.unit_id := by
  unfold unitPred getU
  cases h : r[0]? <;> simp [h]

lemma itemPred_true_iff (it : ContentItemProgress) (r : Row) :
    itemPred it r = .ok true ↔ r[6]? = some it.content.progress_key := by
  unfold itemPred getU
  cases h : r[6]? <;> simp [h]

lemma quizPred_true_iff (a : TopicQuizAttempt) (r : Row) :
    quizPred a r = .ok true ↔ (r[7]? = some a.parent_id ∧ r[1]? = some "TopicQuiz") := by
  unfold quizPred getU
  cases h7 : r[7]? with
  | none => simp [h7]
  | some s7 =>
    cases h1 : r[1]? with
    | none =>
      simp only [h7]
      by_cases hs : s7 == a.parent_id <;> simp [hs, h1]
    | some s1 =>
      simp only [h7, h1]
      by_cases hs : s7 == a.parent_id
      · have hs2 : s7 = a.parent_id := by simpa using hs
        simp [hs, hs2]
      · have hs2 : ¬ s7 = a.parent_id := by simpa using hs
        simp [hs, hs2]

lemma testPred_true_iff (a : TopicUnitTestAttempt) (r : Row) :
    testPred a r = .ok true ↔ (r[8]? = some a.parent_id ∧ r[1]? = some "TopicUnitTest") := by
  unfold testPred getU
  cases h8 : r[8]? with
  | none => simp [h8]
  | some s8 =>
    cases h1 : r[1]? with
    | none =>
      simp only [h8]
      by_cases hs : s8 == a.parent_id <;> simp [hs, h1]
    | some s1 =>
      simp only [h8, h1]
      by_cases hs : s8 == a.parent_id
      · have hs2 : s8 = a.parent_id := by simpa using hs
        simp [hs, hs2]
      · have hs2 : ¬ s8 = a.parent_id := by simpa using hs
        simp [hs, hs2]

/-! Claims about the merge phase (C1, C3, C9). -/

lemma u32Sub_eq_sub {a b : Nat} (hb : b ≤ a) (ha : a < 4294967296) :
    u32Sub a b = a - b := by
  unfold u32Sub
  omega

/-- The row predicate the quiz merge actually evaluates: column 7
(`parentTopic`) equals the decoded parent id and column 1 (`typeName`) is
the literal `"TopicQuiz"`. -/
def QuizRowMatch (a : TopicQuizAttempt) (r : Row) : Prop :=
  r[7]? = some a.parent_id ∧ r[1]? = some "TopicQuiz"

/-- The row predicate the unit-test merge actually evaluates: column 8
(`parentId`) equals the decoded parent id and column 1 is
`"TopicUnitTest"`. -/
def TestRowMatch (a : TopicUnitTestAttempt) (r : Row) : Prop :=
  r[8]? = some a.parent_id ∧ r[1]? = some "TopicUnitTest"

/-- The header row of the output table. -/
def c1hdr : Row :=
  ["id", "typeName", "order", "title", "slug", "relativeUrl", "progressKey",
   "parentTopic", "parentId", "parentType", "parentTitle", "parentSlug",
   "parentRelativeUrl", "percentage", "pointsEarned", "status",
   "completionStatus", "numAttempted", "numCorrect", "numIncorrect"]

/-- A TopicQuiz row whose `id` (column 0) is `"P1"` but whose `parentTopic`
(column 7) is `"other"`. -/
def c1r0 : Row :=
  ["P1", "TopicQuiz", "1", "Quiz A", "quiz-a", "/quiz-a", "", "other", "u1",
   "Unit", "U", "u", "/u", "", "", "", "", "", "", ""]

/-- A TopicQuiz row whose `id` (column 0) is `"ZZZ"` but whose `parentTopic`
(column 7) is `"P1"`. -/
def c1r1 : Row :=
  ["ZZZ", "TopicQuiz", "2", "Quiz B", "quiz-b", "/quiz-b", "", "P1", "u1",
   "Unit", "U", "u", "/u", "", "", "", "", "", "", ""]

/-- A quiz attempt whose decoded parent id is `"P1"` (the position key
`"EVAxDA"` base64-decodes to `"\x11P1\x0c"`). -/
def c1qa : TopicQuizAttempt :=
  { type_name := "TopicQuizAttempt", is_completed := true, num_attempted := 3,
    num_correct := 2, position_key := "EVAxDA", parent_id := "P1" }

/-- A unit-test attempt whose parent id matches no row of the demo table. -/
def c1ta : TopicUnitTestAttempt :=
  { type_name := "TopicUnitTestAttempt", id := "k", is_completed := true,
    num_attempted := 1, num_correct := 1, parent_id := "nomatch" }

/-- The rows produced by the quiz step of the C1 counterexample: row 1 (id
`"ZZZ"`) received the update. -/
def c1rowsQ : List Row :=
  [c1r0,
   ["ZZZ", "TopicQuiz", "2", "Quiz B", "quiz-b", "/quiz-b", "", "P1", "u1",
    "Unit", "U", "u", "/u", "", "", "", "COMPLETE", "3", "2", "1"]]

/-- C1 counterexample: with two TopicQuiz rows — `c1r0` whose `id` equals the
attempt's decoded parent id `"P1"`, and `c1r1` whose `id` is `"ZZZ"` but
whose `parentTopic` column is `"P1"` — the merge updates `c1r1` (its
`completionStatus` cell becomes `"COMPLETE"`) and leaves `c1r0`'s quiz cells
empty: a row whose `id` differs from the decoded parent id is updated, and
the row whose `id` equals it is not.  (Columns 13 and 14 of row 0 are the
overall-mastery write, which always targets row 0.) -/
theorem c1_counterexample_matches_parent_topic :
    update_csv c1hdr [c1r0, c1r1] ⟨0, 0⟩ [] [] [] [[c1qa]] [] =
      .ok (c1hdr,
        [["P1", "TopicQuiz", "1", "Quiz A", "quiz-a", "/quiz-a", "", "other", "u1",
          "Unit", "U", "u", "/u", "0", "0", "", "", "", "", ""],
         ["ZZZ", "TopicQuiz", "2", "Quiz B", "quiz-b", "/quiz-b", "", "P1", "u1",
          "Unit", "U", "u", "/u", "", "", "", "COMPLETE", "3", "2", "1"]]) ∧
    c1qa.parent_id = "P1" ∧ c1r0[0]? = some "P1" ∧ c1r0[1]? = some "TopicQuiz" ∧
    c1r1[0]? = some "ZZZ" ∧ c1r1[16]? = some "" := by
  exact ⟨rfl, rfl, rfl, rfl, rfl, rfl⟩

/-- C1 (amended): for every quiz attempt and unit-test attempt processed by
the merge phase, the row chosen for update is the first row whose
`parentTopic` column (index 7, for quiz attempts) respectively `parentId`
column (index 8, for unit-test attempts) equals the attempt's decoded
`parent_id` and whose `typeName` column equals the fixed literal; earlier
rows do not satisfy that predicate, rows other than the chosen one are not
updated by the step, and when no row satisfies it the step changes
nothing. -/
theorem c1_amended_match_on_parent_columns
    (a : TopicQuizAttempt) (b : TopicUnitTestAttempt) (rows rowsQ rowsT : List Row)
    (hq : quizStep a rows = .ok rowsQ) (ht : testStep b rows = .ok rowsT) :
    ((∀ r ∈ rows, ¬ QuizRowMatch a r) → rowsQ = rows) ∧
    (∀ j r, findRow (quizPred a) rows = .ok (some (j, r)) →
      rows[j]? = some r ∧ QuizRowMatch a r ∧
      (∀ i ri, i < j → rows[i]? = some ri → ¬ QuizRowMatch a ri) ∧
      rowsQ = rows.set j (applyUpdates r (quizUpdates a)) ∧
      ∀ i, i ≠ j → rowsQ[i]? = rows[i]?) ∧
    ((∀ r ∈ rows, ¬ TestRowMatch b r) → rowsT = rows) ∧
    (∀ j r, findRow (testPred b) rows = .ok (some (j, r)) →
      rows[j]? = some r ∧ TestRowMatch b r ∧
      (∀ i ri, i < j → rows[i]? = some ri → ¬ TestRowMatch b ri) ∧
      rowsT = rows.set j (applyUpdates r (testUpdates b)) ∧
      ∀ i, i ≠ j → rowsT[i]? = rows[i]?) := by
  refine ⟨?_, ?_, ?_, ?_⟩
  · intro hno
    rcases phaseStep_cases hq with ⟨hf, h2⟩ | ⟨j, r, hf, h2⟩
    · exact h2
    · obtain ⟨g1, g2, g3⟩ := findRow_ok_some hf
      have hmem : r ∈ rows := by
        have := List.getElem?_eq_some.mp g1
        obtain ⟨hlt, hget⟩ := this
        exact hget ▸ List.getElem_mem hlt
      exact absurd ((quizPred_true_iff a r).mp g2) (hno r hmem)
  · intro j r hf
    obtain ⟨g1, g2, g3⟩ := findRow_ok_some hf
    have hset := phaseStep_found hq hf
    refine ⟨g1, (quizPred_true_iff a r).mp g2, ?_, hset, ?_⟩
    · intro i ri hi hri hmatch
      obtain ⟨ri2, hri2, hfalse⟩ := g3 i hi
      rw [hri] at hri2
      have : ri = ri2 := by injection hri2
      rw [← this] at hfalse
      rw [(quizPred_true_iff a ri).mpr hmatch] at hfalse
      simp at hfalse
    · intro i hne
      rw [hset]
      exact List.getElem?_set_ne (by omega)
  · intro hno
    rcases phaseStep_cases ht with ⟨hf, h2⟩ | ⟨j, r, hf, h2⟩
    · exact h2
    · obtain ⟨g1, g2, g3⟩ := findRow_ok_some hf
      have hmem : r ∈ rows := by
        have := List.getElem?_eq_some.mp g1
        obtain ⟨hlt, hget⟩ := this
        exact hget ▸ List.getElem_mem hlt
      exact absurd ((testPred_true_iff b r).mp g2) (hno r hmem)
  · intro j r hf
    obtain ⟨g1, g2, g3⟩ := findRow_ok_some hf
    have hset := phaseStep_found ht hf
    refine ⟨g1, (testPred_true_iff b r).mp g2, ?_, hset, ?_⟩
    · intro i ri hi hri hmatch
      obtain ⟨ri2, hri2, hfalse⟩ := g3 i hi
      rw [hri] at hri2
      have : ri = ri2 := by injection hri2
      rw [← this] at hfalse
      rw [(testPred_true_iff b ri).mpr hmatch] at hfalse
      simp at hfalse
    · intro i hne
      rw [hset]
      exact List.getElem?_set_ne (by omega)

/-- Witness for C1 (amended) on the demo table: the quiz step chose row 1
(first and only `QuizRowMatch`), the earlier row 0 does not match, the rest
of the table is untouched, and the non-matching unit-test attempt changed
nothing. -/
theorem c1_amended_witness :
    ([c1r0, c1r1][1]? = some c1r1 ∧ QuizRowMatch c1qa c1r1 ∧
      (∀ i ri, i < 1 → [c1r0, c1r1][i]? = some ri → ¬ QuizRowMatch c1qa ri) ∧
      c1rowsQ = [c1r0, c1r1].set 1 (applyUpdates c1r1 (quizUpdates c1qa)) ∧
      ∀ i, i ≠ 1 → c1rowsQ[i]? = [c1r0, c1r1][i]?) ∧
    ((∀ r ∈ [c1r0, c1r1], ¬ TestRowMatch c1ta r) → [c1r0, c1r1] = [c1r0, c1r1]) := by
  have h := c1_amended_match_on_parent_columns c1qa c1ta [c1r0, c1r1] c1rowsQ
    [c1r0, c1r1] rfl rfl
  exact ⟨h.2.1 1 c1r1 rfl, h.2.2.1⟩

/-- A quiz attempt reporting more correct than attempted answers. -/
def c3qa : TopicQuizAttempt :=
  { type_name := "TopicQuizAttempt", is_completed := true, num_attempted := 1,
    num_correct := 2, position_key := "", parent_id := "P1" }

/-- A content-item progress whose best score has `num_correct` greater than
`num_attempted`. -/
def c3item : ContentItemProgress :=
  { type_name := "x",
    best_score := some { completed_date := none, num_attempted := some 1, num_correct := some 2 },
    completion_status := "COMPLETE",
    content := { type_name := "Video", id := "v1", progress_key := "pk1" } }

/-- A content-item row joined by `progress_key` `"pk1"` (column 6). -/
def c9row : Row :=
  ["v1", "Video", "1", "V", "v", "/v", "pk1", "u1", "l1", "Lesson", "L", "l",
   "/l", "", "", "", "", "", "", ""]

/-- C3: with `num_attempted = 1, num_correct = 2`, both the quiz-attempt
step and the best-score step write `numIncorrect = "4294967295"` — the u32
subtraction wraps modulo 2^32 (release profile; a debug build panics
instead) and is never clamped to zero. -/
theorem c3_num_incorrect_wraps_not_clamped :
    quizStep c3qa [c1r1] =
      .ok [["ZZZ", "TopicQuiz", "2", "Quiz B", "quiz-b", "/quiz-b", "", "P1", "u1",
        "Unit", "U", "u", "/u", "", "", "", "COMPLETE", "1", "2", "4294967295"]] ∧
    itemStep c3item [c9row] =
      .ok [["v1", "Video", "1", "V", "v", "/v", "pk1", "u1", "l1", "Lesson", "L",
        "l", "/l", "", "", "", "COMPLETE", "1", "2", "4294967295"]] ∧
    u32Sub 1 2 = 4294967295 := by
  exact ⟨rfl, rfl, rfl⟩

/-- C9: for a content-item progress matched to a row (with enough columns),
when both `num_attempted` and `num_correct` are present the matched row's
`numIncorrect` cell (column 19) becomes the decimal string of their
difference; when either is absent it becomes the empty string. -/
theorem c9_num_incorrect_from_best_score
    (it : ContentItemProgress) (rows rows2 : List Row) (j : Nat) (r : Row)
    (h : itemStep it rows = .ok rows2)
    (hf : findRow (itemPred it) rows = .ok (some (j, r)))
    (hlen : 19 < r.length) :
    (∀ na nc, it.best_score.bind (fun bs => bs.num_attempted) = some na →
      it.best_score.bind (fun bs => bs.num_correct) = some nc →
      nc ≤ na → na < 4294967296 →
      cellAt rows2 j 19 = some (toString (na - nc))) ∧
    ((it.best_score.bind (fun bs => bs.num_attempted) = none ∨
      it.best_score.bind (fun bs => bs.num_correct) = none) →
      cellAt rows2 j 19 = some "") := by
  obtain ⟨g1, g2, g3⟩ := findRow_ok_some hf
  have hset := phaseStep_found h hf
  obtain ⟨hjlt, hget⟩ := List.getElem?_eq_some.mp g1
  have hcell : cellAt rows2 j 19 = (applyUpdates r (itemUpdates it))[19]? := by
    unfold cellAt
    rw [hset, List.getElem?_set_self hjlt]
    exact rfl
  constructor
  · intro na nc hna hnc hle hlt
    rw [hcell]
    have hfind : (itemUpdates it).find? (fun v => v.1 == 19) =
        some (19, toString (u32Sub na nc)) := by
      simp [itemUpdates, hna, hnc]
    rw [applyUpdates_hit r (itemUpdates it) 19 hlen _ hfind]
    rw [u32Sub_eq_sub hle hlt]
  · intro habsent
    rw [hcell]
    have hfind : (itemUpdates it).find? (fun v => v.1 == 19) = some (19, "") := by
      rcases habsent with hna | hnc
      · simp [itemUpdates, hna]
      · simp [itemUpdates, hnc]
    rw [applyUpdates_hit r (itemUpdates it) 19 hlen _ hfind]

/-- A content-item progress with best score 5 attempted / 3 correct. -/
def c9item : ContentItemProgress :=
  { type_name := "x",
    best_score := some { completed_date := none, num_attempted := some 5, num_correct := some 3 },
    completion_status := "COMPLETE",
    content := { type_name := "Video", id := "v1", progress_key := "pk1" } }

/-- A content-item progress with no best score. -/
def c9itemNone : ContentItemProgress :=
  { type_name := "x", best_score := none, completion_status := "STARTED",
    content := { type_name := "Video", id := "v1", progress_key := "pk1" } }

/-- The row after merging `c9item`: `numIncorrect = "2"`. -/
def c9out : List Row :=
  [["v1", "Video", "1", "V", "v", "/v", "pk1", "u1", "l1", "Lesson", "L", "l",
    "/l", "", "", "", "COMPLETE", "5", "3", "2"]]

/-- The row after merging `c9itemNone`: `numIncorrect = ""`. -/
def c9outNone : List Row :=
  [["v1", "Video", "1", "V", "v", "/v", "pk1", "u1", "l1", "Lesson", "L", "l",
    "/l", "", "", "", "STARTED", "", "", ""]]

/-- Witness for C9: `num_attempted = 5, num_correct = 3` gives `"2"`, and an
absent best score gives `""`. -/
theorem c9_num_incorrect_witness :
    cellAt c9out 0 19 = some (toString (5 - 3)) ∧
    cellAt c9outNone 0 19 = some "" := by
  refine ⟨?_, ?_⟩
  · exact (c9_num_incorrect_from_best_score c9item [c9row] c9out 0 c9row rfl rfl
      (by decide)).1 5 3 rfl rfl (by decide) (by decide)
  · exact (c9_num_incorrect_from_best_score c9itemNone [c9row] c9outNone 0 c9row rfl rfl
      (by decide)).2 (Or.inl rfl)

/-! Helper lemmas about the tree walk. -/

lemma extract_info_ok {item : Json} {parent : Option DataStruct} {order : Nat}
    {r : DataStruct} (h : extract_info item parent order = .ok r) :
    r.order = order ∧
    r.parent_id = parent.map (fun p => p.id) ∧
    r.parent_type = parent.map (fun p => p.type_name) ∧
    r.parent_title = parent.map (fun p => p.title) ∧
    r.parent_slug = parent.map (fun p => p.slug) ∧
    r.parent_relative_url = parent.map (fun p => p.relative_url) := by
  unfold extract_info at h
  repeat' split at h
  all_goals cases h
  all_goals simp

/-- The per-sibling row blocks of a `walkList` run. -/
def blocks (body : Json → Nat → WalkOut) : List Json → Nat → List (List DataStruct)
  | [], _ => []
  | x :: xs, k => (body x k).1 :: blocks body xs (k + 1)

lemma walkList_success {body : Json → Nat → WalkOut} :
    ∀ {xs : List Json} {k : Nat}, (walkList body xs k).2 = none →
      (walkList body xs k).1 = (blocks body xs k).flatten ∧
      ∀ i (hi : i < xs.length), (body xs[i] (k + i)).2 = none := by
  intro xs
  induction xs with
  | nil =>
    intro k h
    refine ⟨by simp [walkList, blocks], ?_⟩
    intro i hi
    simp at hi
  | cons x rest ih =>
    intro k h
    rcases hb : body x k with ⟨rows, e⟩
    cases e with
    | some e0 => simp [walkList, hb] at h
    | none =>
      rcases hr : walkList body rest (k + 1) with ⟨rest1, e2⟩
      have h2 : (walkList body rest (k + 1)).2 = none := by
        rw [hr]
        simp [walkList, hb, hr] at h
        simpa using h
      obtain ⟨ih1, ih2⟩ := ih h2
      constructor
      · simp [walkList, hb, hr, blocks]
        rw [hr] at ih1
        simpa using ih1
      · intro i hi
        cases i with
        | zero => simpa using hb ▸ rfl
        | succ i2 =>
          have := ih2 i2 (by simpa using hi)
          simpa [Nat.add_comm, Nat.add_assoc, Nat.add_left_comm] using this

lemma contentBody_ok {li : DataStruct} {c : Json} {o : Nat}
    (h : (contentBody li c o).2 = none) :
    ∃ info, extract_info c (some li) o = .ok info ∧ (contentBody li c o).1 = [info] := by
  cases hx : extract_info c (some li) o with
  | error e => simp [contentBody, hx] at h
  | ok info => exact ⟨info, rfl, by simp [contentBody, hx]⟩

lemma lessonBody_ok {ui : DataStruct} {l : Json} {o : Nat}
    (h : (lessonBody ui l o).2 = none) :
    ∃ linfo, extract_info l (some ui) o = .ok linfo ∧
      ((((l.index "__typename").eqStr "Lesson") = false ∧
        (lessonBody ui l o).1 = [linfo]) ∨
       (∃ cs, ((l.index "__typename").eqStr "Lesson") = true ∧
         (l.index "curatedChildren").asArr = some cs ∧
         (lessonBody ui l o).1 = linfo :: (walkList (contentBody linfo) cs 1).1 ∧
         (walkList (contentBody linfo) cs 1).2 = none)) := by
  cases hx : extract_info l (some ui) o with
  | error e => simp [lessonBody, hx] at h
  | ok linfo =>
    refine ⟨linfo, rfl, ?_⟩
    by_cases ht : ((l.index "__typename").eqStr "Lesson") = true
    · right
      cases hc : (l.index "curatedChildren").asArr with
      | none => simp [lessonBody, hx, ht, hc] at h
      | some cs =>
        rcases hw : walkList (contentBody linfo) cs 1 with ⟨rows, e⟩
        cases e with
        | some e0 => simp [lessonBody, hx, ht, hc, hw] at h
        | none =>
          refine ⟨cs, ht, rfl, ?_, by rw [hw]⟩
          simp [lessonBody, hx, ht, hc, hw]
    · left
      refine ⟨by simpa using ht, ?_⟩
      simp [lessonBody, hx, ht]

lemma unitBody_ok {ci : DataStruct} {u : Json} {o : Nat}
    (h : (unitBody ci u o).2 = none) :
    ∃ uinfo ls, extract_info u (some ci) o = .ok uinfo ∧
      (u.index "allOrderedChildren").asArr = some ls ∧
      (unitBody ci u o).1 = uinfo :: (walkList (lessonBody uinfo) ls 1).1 ∧
      (walkList (lessonBody uinfo) ls 1).2 = none := by
  cases hx : extract_info u (some ci) o with
  | error e => simp [unitBody, hx] at h
  | ok uinfo =>
    cases hc : (u.index "allOrderedChildren").asArr with
    | none => simp [unitBody, hx, hc] at h
    | some ls =>
      rcases hw : walkList (lessonBody uinfo) ls 1 with ⟨rows, e⟩
      cases e with
      | some e0 => simp [unitBody, hx, hc, hw] at h
      | none =>
        refine ⟨uinfo, ls, rfl, rfl, ?_, by rw [hw]⟩
        simp [unitBody, hx, hc, hw]

lemma extract_course_ok {course : Json} (h : (extract_course course).2 = none) :
    ∃ cinfo us, extract_info course none 1 = .ok cinfo ∧
      (course.index "unitChildren").asArr = some us ∧
      (extract_course course).1 = cinfo :: (walkList (unitBody cinfo) us 1).1 ∧
      (walkList (unitBody cinfo) us 1).2 = none := by
  cases hx : extract_info course none 1 with
  | error e => simp [extract_course, hx] at h
  | ok cinfo =>
    cases hc : (course.index "unitChildren").asArr with
    | none => simp [extract_course, hx, hc] at h
    | some us =>
      rcases hw : walkList (unitBody cinfo) us 1 with ⟨rows, e⟩
      cases e with
      | some e0 => simp [extract_course, hx, hc, hw] at h
      | none =>
        refine ⟨cinfo, us, rfl, rfl, ?_, by rw [hw]⟩
        simp [extract_course, hx, hc, hw]

/-! Demo curriculum documents. -/

/-- A content item using the `urlWithinCurationNode` fallback. -/
def demoContent1 : Json :=
  Json.obj [("id", .str "c1"), ("__typename", .str "Video"),
    ("translatedTitle", .str "C One"), ("slug", .str "c-one"),
    ("urlWithinCurationNode", .str "/c-one"), ("progressKey", .str "pkc1"),
    ("parentTopic", Json.obj [("id", .str "l1")])]

/-- A second content item. -/
def demoContent2 : Json :=
  Json.obj [("id", .str "c2"), ("__typename", .str "Exercise"),
    ("translatedTitle", .str "C Two"), ("slug", .str "c-two"),
    ("relativeUrl", .str "/c-two"), ("progressKey", .str "pkc2")]

/-- A true `"Lesson"` node with two content children. -/
def demoLesson : Json :=
  Json.obj [("id", .str "l1"), ("__typename", .str "Lesson"),
    ("translatedTitle", .str "L One"), ("slug", .str "l-one"),
    ("relativeUrl", .str "/l-one"),
    ("curatedChildren", Json.arr [demoContent1, demoContent2])]

/-- A lesson-like child that is not a `"Lesson"` (no children walked). -/
def demoQuiz : Json :=
  Json.obj [("id", .str "q1"), ("__typename", .str "TopicQuiz"),
    ("translatedTitle", .str "Q One"), ("slug", .str "q-one"),
    ("relativeUrl", .str "/q-one"), ("progressKey", .str "pkq1"),
    ("parentTopic", Json.obj [("id", .str "u1")])]

/-- A unit with two lesson-like children. -/
def demoUnit : Json :=
  Json.obj [("id", .str "u1"), ("__typename", .str "Unit"),
    ("translatedTitle", .str "U One"), ("slug", .str "u-one"),
    ("relativeUrl", .str "/u-one"),
    ("allOrderedChildren", Json.arr [demoLesson, demoQuiz])]

/-- A well-formed course document with one unit. -/
def demoCourse : Json :=
  Json.obj [("id", .str "crs"), ("__typename", .str "Course"),
    ("translatedTitle", .str "Course"), ("slug", .str "crs"),
    ("relativeUrl", .str "/crs"), ("unitChildren", Json.arr [demoUnit])]

/-- A course document whose single unit is missing every required field. -/
def demoBadCourse : Json :=
  Json.obj [("id", .str "crs"), ("__typename", .str "Course"),
    ("translatedTitle", .str "Course"), ("slug", .str "crs"),
    ("relativeUrl", .str "/crs"), ("unitChildren", Json.arr [Json.obj []])]

/-! C5: failure of the walk and the fate of already-appended rows. -/

/-- C5 counterexample: on `demoBadCourse` the walk fails with
`MissingField "id"` at the first unit, yet the course record appended before
the failure stays in the output (one row is written: the csv writer flushes
its buffer on drop while main.rs propagates the error, so the row is
persisted in the file). -/
theorem c5_counterexample_partial_row_survives :
    (extract_course demoBadCourse).2 = some (AppError.missingField "id") ∧
    (extract_course demoBadCourse).1.length = 1 := by
  exact ⟨rfl, rfl⟩

/-- C5 (amended): when the tree walk fails, the walk as a whole reports the
error and nothing after the failing node is appended, but the rows appended
before the failure are not discarded: either the root extraction itself
failed and no row was appended, or the course record (and whatever else was
appended before the failure) remains in the output. -/
theorem c5_amended_abort_keeps_prefix (course : Json) (e : AppError)
    (h : (extract_course course).2 = some e) :
    (extract_info course none 1 = .error e ∧ (extract_course course).1 = []) ∨
    (∃ cinfo rest, extract_info course none 1 = .ok cinfo ∧
      (extract_course course).1 = cinfo :: rest) := by
  cases hx : extract_info course none 1 with
  | error e2 =>
    left
    have h1 : (extract_course course).1 = [] := by simp [extract_course, hx]
    have h2 : (extract_course course).2 = some e2 := by simp [extract_course, hx]
    rw [h] at h2
    have he : e2 = e := (Option.some.inj h2).symm
    exact ⟨by rw [he], h1⟩
  | ok cinfo =>
    right
    cases hu : (course.index "unitChildren").asArr with
    | none => exact ⟨cinfo, [], rfl, by simp [extract_course, hx, hu]⟩
    | some us =>
      rcases hw : walkList (unitBody cinfo) us 1 with ⟨rows, e2⟩
      exact ⟨cinfo, rows, rfl, by simp [extract_course, hx, hu, hw]⟩

/-- Witness for C5 (amended) at `demoBadCourse`: the root extraction
succeeded, so the course row survives the failing walk. -/
theorem c5_amended_abort_keeps_prefix_witness :
    (extract_info demoBadCourse none 1 = .error (AppError.missingField "id") ∧
      (extract_course demoBadCourse).1 = []) ∨
    (∃ cinfo rest, extract_info demoBadCourse none 1 = .ok cinfo ∧
      (extract_course demoBadCourse).1 = cinfo :: rest) := by
  exact c5_amended_abort_keeps_prefix demoBadCourse (AppError.missingField "id") rfl

/-! C6 and C7: structure of a successful walk. -/

lemma course_walk_master {course : Json} (h : (extract_course course).2 = none) :
    ∃ cinfo us, extract_info course none 1 = .ok cinfo ∧
      (course.index "unitChildren").asArr = some us ∧
      (extract_course course).1 = cinfo :: (blocks (unitBody cinfo) us 1).flatten ∧
      ∀ i (hi : i < us.length), ∃ uinfo,
        extract_info us[i] (some cinfo) (1 + i) = .ok uinfo ∧
        (∃ tail, (unitBody cinfo us[i] (1 + i)).1 = uinfo :: tail) ∧
        ∀ ls, (us[i].index "allOrderedChildren").asArr = some ls →
          ∀ j (hj : j < ls.length), ∃ linfo,
            extract_info ls[j] (some uinfo) (1 + j) = .ok linfo ∧
            (∃ tail, (lessonBody uinfo ls[j] (1 + j)).1 = linfo :: tail) ∧
            ∀ cs, ((ls[j].index "__typename").eqStr "Lesson") = true →
              (ls[j].index "curatedChildren").asArr = some cs →
              ∀ m (hm : m < cs.length), ∃ minfo,
                extract_info cs[m] (some linfo) (1 + m) = .ok minfo ∧
                (contentBody linfo cs[m] (1 + m)).1 = [minfo] := by
  obtain ⟨cinfo, us, hci, hus, hrows, hw⟩ := extract_course_ok h
  obtain ⟨hw1, hw2⟩ := walkList_success hw
  refine ⟨cinfo, us, hci, hus, by rw [hrows, hw1], ?_⟩
  intro i hi
  obtain ⟨uinfo, ls, hui, hls, huhead, hlw⟩ := unitBody_ok (hw2 i hi)
  obtain ⟨hlw1, hlw2⟩ := walkList_success hlw
  refine ⟨uinfo, hui, ⟨_, huhead⟩, ?_⟩
  intro ls2 hls2
  have hlseq : ls2 = ls := by
    rw [hls] at hls2
    exact (Option.some.inj hls2).symm
  subst hlseq
  intro j hj
  obtain ⟨linfo, hli, hcase⟩ := lessonBody_ok (hlw2 j hj)
  rcases hcase with ⟨hfalse, hshape⟩ | ⟨cs, htrue, hcs, hshape, hcw⟩
  · refine ⟨linfo, hli, ⟨[], hshape⟩, ?_⟩
    intro cs2 ht2 _ m hm
    rw [hfalse] at ht2
    cases ht2
  · obtain ⟨hcw1, hcw2⟩ := walkList_success hcw
    refine ⟨linfo, hli, ⟨_, hshape⟩, ?_⟩
    intro cs2 _ hcs2 m hm
    have hcseq : cs2 = cs := by
      rw [hcs] at hcs2
      exact (Option.some.inj hcs2).symm
    subst hcseq
    obtain ⟨minfo, hmi, hone⟩ := contentBody_ok (hcw2 m hm)
    exact ⟨minfo, hmi, hone⟩

/-- The order-invariant of the claim, stated over the walk's own record
blocks: the root record carries order 1, and for every sibling array at
every level the record produced for the `i`-th sibling carries order
`i + 1`. -/
def SiblingOrders (course : Json) : Prop :=
  ∃ cinfo us, extract_info course none 1 = .ok cinfo ∧
    (course.index "unitChildren").asArr = some us ∧
    cinfo.order = 1 ∧
    (extract_course course).1 = cinfo :: (blocks (unitBody cinfo) us 1).flatten ∧
    ∀ i (hi : i < us.length), ∃ uinfo,
      (∃ tail, (unitBody cinfo us[i] (1 + i)).1 = uinfo :: tail) ∧
      uinfo.order = i + 1 ∧
      ∀ ls, (us[i].index "allOrderedChildren").asArr = some ls →
        ∀ j (hj : j < ls.length), ∃ linfo,
          (∃ tail, (lessonBody uinfo ls[j] (1 + j)).1 = linfo :: tail) ∧
          linfo.order = j + 1 ∧
          ∀ cs, ((ls[j].index "__typename").eqStr "Lesson") = true →
            (ls[j].index "curatedChildren").asArr = some cs →
            ∀ m (hm : m < cs.length), ∃ minfo,
              (contentBody linfo cs[m] (1 + m)).1 = [minfo] ∧
              minfo.order = m + 1

/-- C6: on every document on which the walk succeeds, the `order` values
assigned to the records of each sibling array are exactly `1..N` in array
order — each `i`-th sibling's record carries `order = i + 1` regardless of
node content — and the root record gets order 1. -/
theorem c6_sibling_orders_one_to_n (course : Json)
    (h : (extract_course course).2 = none) : SiblingOrders course := by
  obtain ⟨cinfo, us, hci, hus, hrows, hstruct⟩ := course_walk_master h
  refine ⟨cinfo, us, hci, hus, (extract_info_ok hci).1, hrows, ?_⟩
  intro i hi
  obtain ⟨uinfo, hui, huhead, hrest⟩ := hstruct i hi
  refine ⟨uinfo, huhead, by rw [(extract_info_ok hui).1, Nat.add_comm], ?_⟩
  intro ls hls j hj
  obtain ⟨linfo, hli, hlhead, hrest2⟩ := hrest ls hls j hj
  refine ⟨linfo, hlhead, by rw [(extract_info_ok hli).1, Nat.add_comm], ?_⟩
  intro cs ht hcs m hm
  obtain ⟨minfo, hmi, hone⟩ := hrest2 cs ht hcs m hm
  exact ⟨minfo, hone, by rw [(extract_info_ok hmi).1, Nat.add_comm]⟩

/-- Witness for C6 on the demo course (one unit; a Lesson with two contents
and a TopicQuiz sibling). -/
theorem c6_sibling_orders_witness : SiblingOrders demoCourse :=
  c6_sibling_orders_one_to_n demoCourse rfl

/-- The parent-linkage invariant of the claim: the root record has all five
parent fields absent, and every record produced for a child node carries
exactly its structural parent record's `id`, type, title, slug and relative
url in its five parent fields (so the fields are present on every non-root
record). -/
def ParentLinkage (course : Json) : Prop :=
  ∃ cinfo us, extract_info course none 1 = .ok cinfo ∧
    (course.index "unitChildren").asArr = some us ∧
    cinfo.parent_id = none ∧ cinfo.parent_type = none ∧ cinfo.parent_title = none ∧
    cinfo.parent_slug = none ∧ cinfo.parent_relative_url = none ∧
    (extract_course course).1 = cinfo :: (blocks (unitBody cinfo) us 1).flatten ∧
    ∀ i (hi : i < us.length), ∃ uinfo,
      (∃ tail, (unitBody cinfo us[i] (1 + i)).1 = uinfo :: tail) ∧
      uinfo.parent_id = some cinfo.id ∧ uinfo.parent_type = some cinfo.type_name ∧
      uinfo.parent_title = some cinfo.title ∧ uinfo.parent_slug = some cinfo.slug ∧
      uinfo.parent_relative_url = some cinfo.relative_url ∧
      ∀ ls, (us[i].index "allOrderedChildren").asArr = some ls →
        ∀ j (hj : j < ls.length), ∃ linfo,
          (∃ tail, (lessonBody uinfo ls[j] (1 + j)).1 = linfo :: tail) ∧
          linfo.parent_id = some uinfo.id ∧ linfo.parent_type = some uinfo.type_name ∧
          linfo.parent_title = some uinfo.title ∧ linfo.parent_slug = some uinfo.slug ∧
          linfo.parent_relative_url = some uinfo.relative_url ∧
          ∀ cs, ((ls[j].index "__typename").eqStr "Lesson") = true →
            (ls[j].index "curatedChildren").asArr = some cs →
            ∀ m (hm : m < cs.length), ∃ minfo,
              (contentBody linfo cs[m] (1 + m)).1 = [minfo] ∧
              minfo.parent_id = some linfo.id ∧ minfo.parent_type = some linfo.type_name ∧
              minfo.parent_title = some linfo.title ∧ minfo.parent_slug = some linfo.slug ∧
              minfo.parent_relative_url = some linfo.relative_url

/-- C7: on every document on which the walk succeeds, every non-root record
copies its structural parent record's `id`, type, title, slug and relative
url into its five parent fields at creation time, and all five parent
fields are absent exactly on the root record. -/
theorem c7_parent_linkage (course : Json)
    (h : (extract_course course).2 = none) : ParentLinkage course := by
  obtain ⟨cinfo, us, hci, hus, hrows, hstruct⟩ := course_walk_master h
  obtain ⟨-, hc1, hc2, hc3, hc4, hc5⟩ := extract_info_ok hci
  refine ⟨cinfo, us, hci, hus, by simpa using hc1, by simpa using hc2,
    by simpa using hc3, by simpa using hc4, by simpa using hc5, hrows, ?_⟩
  intro i hi
  obtain ⟨uinfo, hui, huhead, hrest⟩ := hstruct i hi
  obtain ⟨-, hu1, hu2, hu3, hu4, hu5⟩ := extract_info_ok hui
  refine ⟨uinfo, huhead, by simpa using hu1, by simpa using hu2,
    by simpa using hu3, by simpa using hu4, by simpa using hu5, ?_⟩
  intro ls hls j hj
  obtain ⟨linfo, hli, hlhead, hrest2⟩ := hrest ls hls j hj
  obtain ⟨-, hl1, hl2, hl3, hl4, hl5⟩ := extract_info_ok hli
  refine ⟨linfo, hlhead, by simpa using hl1, by simpa using hl2,
    by simpa using hl3, by simpa using hl4, by simpa using hl5, ?_⟩
  intro cs ht hcs m hm
  obtain ⟨minfo, hmi, hone⟩ := hrest2 cs ht hcs m hm
  obtain ⟨-, hm1, hm2, hm3, hm4, hm5⟩ := extract_info_ok hmi
  exact ⟨minfo, hone, by simpa using hm1, by simpa using hm2,
    by simpa using hm3, by simpa using hm4, by simpa using hm5⟩

/-- Witness for C7 on the demo course. -/
theorem c7_parent_linkage_witness : ParentLinkage demoCourse :=
  c7_parent_linkage demoCourse rfl

/-! C8: the update pass touches only columns 13..19 of matched rows. -/

/-- The columns `update_csv` never writes: everything outside 13..19. -/
def NonMut (i : Nat) : Prop := i < 13 ∨ 19 < i

/-- True when some record of the merge inputs matches the row on the stable
columns read by the five matching loops. -/
def rowTouched (mm : List MasteryMapItem) (up : List UnitProgress)
    (ip : List (List ContentItemProgress)) (qp : List (List TopicQuizAttempt))
    (tp : List (List TopicUnitTestAttempt)) (r : Row) : Bool :=
  mm.any (fun m => r[6]? == some m.progress_key) ||
  up.any (fun u => r[0]? == some u.unit_id) ||
  ip.any (fun batch => batch.any (fun it => r[6]? == some it.content.progress_key)) ||
  qp.any (fun batch => batch.any (fun a =>
    r[7]? == some a.parent_id && r[1]? == some "TopicQuiz")) ||
  tp.any (fun batch => batch.any (fun a =>
    r[8]? == some a.parent_id && r[1]? == some "TopicUnitTest"))

/-- Invariant threaded through the six phases: same row count, same per-row
widths, every cell outside the write-permission `W` unchanged, and rows not
selected by `T` wholly unchanged. -/
def FrameInv (T : Nat → Prop) (W : Nat → Nat → Prop) (orig cur : List Row) : Prop :=
  cur.length = orig.length ∧
  (∀ j : Nat, (cur[j]?).map (fun r => r.length) = (orig[j]?).map (fun r => r.length)) ∧
  (∀ j i, ¬ W j i → cellAt cur j i = cellAt orig j i) ∧
  (∀ j, ¬ T j → cur[j]? = orig[j]?)

lemma FrameInv_refl (T : Nat → Prop) (W : Nat → Nat → Prop) (orig : List Row) :
    FrameInv T W orig orig :=
  ⟨rfl, fun _ => rfl, fun _ _ _ => rfl, fun _ _ => rfl⟩

lemma find?_updates_none {i : Nat} (l : List (Nat × String))
    (h : ∀ u ∈ l, u.1 ≠ i) : l.find? (fun u => u.1 == i) = none := by
  rw [List.find?_eq_none]
  intro u hu
  simpa using h u hu

lemma FrameInv_set {T : Nat → Prop} {W : Nat → Nat → Prop} {orig cur : List Row}
    {j : Nat} {r : Row} (upds : List (Nat × String))
    (hinv : FrameInv T W orig cur) (hj : cur[j]? = some r) (hTj : T j)
    (hupds : ∀ i, ¬ W j i → upds.find? (fun u => u.1 == i) = none) :
    FrameInv T W orig (cur.set j (applyUpdates r upds)) := by
  obtain ⟨hlen, hrowlen, hcells, hun⟩ := hinv
  obtain ⟨hjlt, hjget⟩ := List.getElem?_eq_some.mp hj
  refine ⟨by rw [List.length_set]; exact hlen, ?_, ?_, ?_⟩
  · intro j2
    by_cases hj2 : j = j2
    · subst hj2
      rw [List.getElem?_set_self hjlt]
      have h2 := hrowlen j
      rw [hj] at h2
      rw [← h2]
      simp [applyUpdates_length]
    · rw [List.getElem?_set_ne hj2]
      exact hrowlen j2
  · intro j2 i hi
    by_cases hj2 : j = j2
    · subst hj2
      unfold cellAt
      rw [List.getElem?_set_self hjlt]
      have h1 : (some (applyUpdates r upds)).bind (fun row => row[i]?) = r[i]? := by
        show (applyUpdates r upds)[i]? = r[i]?
        exact applyUpdates_frame r upds i (hupds i hi)
      rw [h1]
      have h2 := hcells j i hi
      unfold cellAt at h2
      rw [hj] at h2
      simpa using h2
    · unfold cellAt
      rw [List.getElem?_set_ne hj2]
      exact hcells j2 i hi
  · intro j2 hT2
    have hne : j ≠ j2 := fun he => hT2 (he ▸ hTj)
    rw [List.getElem?_set_ne hne]
    exact hun j2 hT2

lemma phaseStep_frame {α : Type} {pred : α → Row → Except RustErr Bool}
    {upds : α → List (Nat × String)} {T : Nat → Prop} {W : Nat → Nat → Prop}
    {orig : List Row} (a : α)
    (hWhigh : ∀ j i, W j i → 13 ≤ i ∧ i ≤ 19)
    (hupds : ∀ j r, orig[j]? = some r → pred a r = .ok true →
      ∀ u ∈ upds a, W j u.1)
    (hpred : ∀ r1 r2 : Row, r1[0]? = r2[0]? → r1[1]? = r2[1]? → r1[6]? = r2[6]? →
      r1[7]? = r2[7]? → r1[8]? = r2[8]? → pred a r1 = pred a r2)
    (hT : ∀ j r, orig[j]? = some r → pred a r = .ok true → T j)
    {cur cur2 : List Row} (hinv : FrameInv T W orig cur)
    (hstep : phaseStepOf pred upds a cur = .ok cur2) :
    FrameInv T W orig cur2 := by
  rcases phaseStep_cases hstep with ⟨hf, rfl⟩ | ⟨j, r, hf, rfl⟩
  · exact hinv
  · obtain ⟨g1, g2, g3⟩ := findRow_ok_some hf
    obtain ⟨hlen, hrowlen, hcells, hun⟩ := hinv
    obtain ⟨hjlt, hjget⟩ := List.getElem?_eq_some.mp g1
    have hjlt2 : j < orig.length := by omega
    have hro : orig[j]? = some orig[j] := List.getElem?_eq_getElem hjlt2
    have hcell : ∀ i, NonMut i → r[i]? = orig[j][i]? := by
      intro i hi
      have hnW : ¬ W j i := by
        intro hw
        have h19 := hWhigh j i hw
        unfold NonMut at hi
        omega
      have h2 := hcells j i hnW
      unfold cellAt at h2
      rw [g1, hro] at h2
      simpa using h2
    have hpredO : pred a orig[j] = .ok true := by
      rw [← hpred r orig[j] (hcell 0 (Or.inl (by omega))) (hcell 1 (Or.inl (by omega)))
        (hcell 6 (Or.inl (by omega))) (hcell 7 (Or.inl (by omega)))
        (hcell 8 (Or.inl (by omega)))]
      exact g2
    have hTj : T j := hT j orig[j] hro hpredO
    refine FrameInv_set (upds a) ⟨hlen, hrowlen, hcells, hun⟩ g1 hTj ?_
    intro i hWi
    apply find?_updates_none
    intro u hu heq
    apply hWi
    rw [← heq]
    exact hupds j orig[j] hro hpredO u hu

lemma runPhase_inv {α : Type} {step : α → List Row → Except RustErr (List Row)}
    {P : List Row → Prop} :
    ∀ {l : List α}, (∀ a ∈ l, ∀ cur cur2, P cur → step a cur = .ok cur2 → P cur2) →
      ∀ {cur cur2 : List Row}, P cur → runPhase step l cur = .ok cur2 → P cur2 := by
  intro l
  induction l with
  | nil =>
    intro _ cur cur2 hP h
    unfold runPhase at h
    exact (Except.ok.inj h) ▸ hP
  | cons a rest ih =>
    intro hsteps cur cur2 hP h
    cases hs : step a cur with
    | error e => simp [runPhase, hs] at h
    | ok mid =>
      have hmid := hsteps a (by simp) cur mid hP hs
      have h2 : runPhase step rest mid = .ok cur2 := by
        simpa [runPhase, hs] using h
      exact ih (fun x hx => hsteps x (by simp [hx])) hmid h2

lemma masteryV2Phase_frame {T : Nat → Prop} {W : Nat → Nat → Prop} {orig : List Row}
    (m : MasteryV2) (hT0 : T 0) (hW13 : W 0 13) (hW14 : W 0 14)
    {cur cur2 : List Row} (hinv : FrameInv T W orig cur)
    (h : masteryV2Phase m cur = .ok cur2) : FrameInv T W orig cur2 := by
  cases cur with
  | nil =>
    unfold masteryV2Phase at h
    exact (Except.ok.inj h) ▸ hinv
  | cons r0 rest =>
    unfold masteryV2Phase at h
    replace h : (match update_record r0
        [(13, toString m.percentage), (14, toString m.points_earned)] with
      | Except.error e => Except.error (RustErr.app e)
      | Except.ok r0n => Except.ok (r0n :: rest)) = Except.ok cur2 := h
    rw [update_record_eq] at h
    have h2 := (Except.ok.inj h).symm
    rw [h2]
    have h3 : (applyUpdates r0
        [(13, toString m.percentage), (14, toString m.points_earned)]) :: rest =
        (r0 :: rest).set 0 (applyUpdates r0
          [(13, toString m.percentage), (14, toString m.points_earned)]) := by
      simp
    rw [h3]
    apply FrameInv_set _ hinv (by simp) hT0
    intro i hWi
    apply find?_updates_none
    intro u hu
    simp at hu
    rcases hu with rfl | rfl
    · intro heq
      exact hWi (heq ▸ hW13)
    · intro heq
      exact hWi (heq ▸ hW14)

lemma andThen_ok_inv {A B : Type} {x : Except RustErr A} {f : A → Except RustErr B}
    {b : B} (h : andThen x f = .ok b) : ∃ a, x = .ok a ∧ f a = .ok b := by
  cases x with
  | error e => unfold andThen at h; cases h
  | ok a => exact ⟨a, rfl, h⟩

/-- The rows the six phases can select: row 0 (overall mastery) and rows
matched by some merge input on the stable columns. -/
def touchedT (records : List Row) (mm : List MasteryMapItem) (up : List UnitProgress)
    (ip : List (List ContentItemProgress)) (qp : List (List TopicQuizAttempt))
    (tp : List (List TopicUnitTestAttempt)) (j : Nat) : Prop :=
  j = 0 ∨ ∃ r, records[j]? = some r ∧ rowTouched mm up ip qp tp r = true

/-- Cell (row `j`, column `i`) is named by the update instructions of some
merge input that matches row `j` of the original table: the overall mastery
names columns 13 and 14 of row 0; a matching mastery-map item names column
15; a matching unit progress names columns 13 and 14; a matching
content-item progress, quiz attempt or unit-test attempt names columns
16..19. -/
def CellNamed (records : List Row) (mm : List MasteryMapItem) (up : List UnitProgress)
    (ip : List (List ContentItemProgress)) (qp : List (List TopicQuizAttempt))
    (tp : List (List TopicUnitTestAttempt)) (j i : Nat) : Prop :=
  (j = 0 ∧ (i = 13 ∨ i = 14)) ∨
  (∃ r, records[j]? = some r ∧
    ((∃ a ∈ mm, r[6]? = some a.progress_key ∧ i = 15) ∨
     (∃ a ∈ up, r[0]? = some a.unit_id ∧ (i = 13 ∨ i = 14)) ∨
     (∃ batch ∈ ip, ∃ a ∈ batch, r[6]? = some a.content.progress_key ∧
       16 ≤ i ∧ i ≤ 19) ∨
     (∃ batch ∈ qp, ∃ a ∈ batch, r[7]? = some a.parent_id ∧
       r[1]? = some "TopicQuiz" ∧ 16 ≤ i ∧ i ≤ 19) ∨
     (∃ batch ∈ tp, ∃ a ∈ batch, r[8]? = some a.parent_id ∧
       r[1]? = some "TopicUnitTest" ∧ 16 ≤ i ∧ i ≤ 19)))

lemma cellNamed_high {records : List Row} {mm : List MasteryMapItem}
    {up : List UnitProgress} {ip : List (List ContentItemProgress)}
    {qp : List (List TopicQuizAttempt)} {tp : List (List TopicUnitTestAttempt)}
    {j i : Nat} (h : CellNamed records mm up ip qp tp j i) : 13 ≤ i ∧ i ≤ 19 := by
  rcases h with ⟨-, hi | hi⟩ | ⟨r, -, hc⟩
  · omega
  · omega
  · rcases hc with ⟨a, -, -, hi⟩ | ⟨a, -, -, hi | hi⟩ | ⟨b, -, a, -, -, hi⟩ |
      ⟨b, -, a, -, -, -, hi⟩ | ⟨b, -, a, -, -, -, hi⟩
    all_goals omega

/-- C8: a successful `update_csv` returns the header unchanged, keeps the
row count, order and every row's width, changes a cell only when some merge
input matching that row names that exact column (`CellNamed`) — in
particular never outside columns 13..19 — and leaves every row other than
row 0 (which the overall-mastery write always targets) completely unchanged
unless some merge input matches its stable columns. -/
theorem c8_update_column_isolation
    (header : Row) (records : List Row) (m : MasteryV2) (mm : List MasteryMapItem)
    (up : List UnitProgress) (ip : List (List ContentItemProgress))
    (qp : List (List TopicQuizAttempt)) (tp : List (List TopicUnitTestAttempt))
    (header2 : Row) (rows2 : List Row)
    (h : update_csv header records m mm up ip qp tp = .ok (header2, rows2)) :
    header2 = header ∧
    rows2.length = records.length ∧
    (∀ j : Nat, (rows2[j]?).map (fun r => r.length) =
      (records[j]?).map (fun r => r.length)) ∧
    (∀ j i, ¬ CellNamed records mm up ip qp tp j i →
      cellAt rows2 j i = cellAt records j i) ∧
    (∀ j i, NonMut i → cellAt rows2 j i = cellAt records j i) ∧
    (∀ j r, records[j]? = some r → j ≠ 0 →
      rowTouched mm up ip qp tp r = false → rows2[j]? = some r) := by
  unfold update_csv at h
  obtain ⟨rec1, h0, h⟩ := andThen_ok_inv h
  obtain ⟨rec2, h1, h⟩ := andThen_ok_inv h
  obtain ⟨rec3, h2, h⟩ := andThen_ok_inv h
  obtain ⟨rec4, h3, h⟩ := andThen_ok_inv h
  obtain ⟨rec5, h4, h⟩ := andThen_ok_inv h
  obtain ⟨rec6, h5, h⟩ := andThen_ok_inv h
  have hpair := Except.ok.inj h
  injection hpair with hh hr
  subst hh
  subst hr
  have hWhigh : ∀ j i, CellNamed records mm up ip qp tp j i → 13 ≤ i ∧ i ≤ 19 :=
    fun j i hw => cellNamed_high hw
  have inv0 := FrameInv_refl (touchedT records mm up ip qp tp)
    (CellNamed records mm up ip qp tp) records
  have inv1 := masteryV2Phase_frame m (Or.inl rfl)
    (Or.inl ⟨rfl, Or.inl rfl⟩) (Or.inl ⟨rfl, Or.inr rfl⟩) inv0 h0
  have inv2 : FrameInv (touchedT records mm up ip qp tp)
      (CellNamed records mm up ip qp tp) records rec2 := by
    refine runPhase_inv ?_ inv1 h1
    intro a ha cur cur2 hic hs
    refine phaseStep_frame a hWhigh ?_ ?_ ?_ hic hs
    · intro j r hjr hp u hu
      simp [masteryMapUpdates] at hu
      subst hu
      exact Or.inr ⟨r, hjr, Or.inl ⟨a, ha, (masteryMapPred_true_iff a r).mp hp, rfl⟩⟩
    · intro r1 r2 e0 e1 e6 e7 e8
      unfold masteryMapPred getU
      rw [e6]
    · intro j r hjr hp
      refine Or.inr ⟨r, hjr, ?_⟩
      have h6 := (masteryMapPred_true_iff a r).mp hp
      simp only [rowTouched, Bool.or_eq_true, List.any_eq_true]
      exact Or.inl (Or.inl (Or.inl (Or.inl ⟨a, ha, by simp [h6]⟩)))
  have inv3 : FrameInv (touchedT records mm up ip qp tp)
      (CellNamed records mm up ip qp tp) records rec3 := by
    refine runPhase_inv ?_ inv2 h2
    intro a ha cur cur2 hic hs
    refine phaseStep_frame a hWhigh ?_ ?_ ?_ hic hs
    · intro j r hjr hp u hu
      have h0b := (unitPred_true_iff a r).mp hp
      simp [unitUpdates] at hu
      rcases hu with rfl | rfl
      · exact Or.inr ⟨r, hjr, Or.inr (Or.inl ⟨a, ha, h0b, Or.inl rfl⟩)⟩
      · exact Or.inr ⟨r, hjr, Or.inr (Or.inl ⟨a, ha, h0b, Or.inr rfl⟩)⟩
    · intro r1 r2 e0 e1 e6 e7 e8
      unfold unitPred getU
      rw [e0]
    · intro j r hjr hp
      refine Or.inr ⟨r, hjr, ?_⟩
      have h6 := (unitPred_true_iff a r).mp hp
      simp only [rowTouched, Bool.or_eq_true, List.any_eq_true]
      exact Or.inl (Or.inl (Or.inl (Or.inr ⟨a, ha, by simp [h6]⟩)))
  have inv4 : FrameInv (touchedT records mm up ip qp tp)
      (CellNamed records mm up ip qp tp) records rec4 := by
    refine runPhase_inv ?_ inv3 h3
    intro batch hbatch cur cur2 hic hs
    refine runPhase_inv ?_ hic hs
    intro it hit cur3 cur4 hic2 hs2
    refine phaseStep_frame it hWhigh ?_ ?_ ?_ hic2 hs2
    · intro j r hjr hp u hu
      have h6 := (itemPred_true_iff it r).mp hp
      simp [itemUpdates] at hu
      rcases hu with rfl | rfl | rfl | rfl <;>
        exact Or.inr ⟨r, hjr, Or.inr (Or.inr (Or.inl ⟨batch, hbatch, it, hit, h6,
          by norm_num⟩))⟩
    · intro r1 r2 e0 e1 e6 e7 e8
      unfold itemPred getU
      rw [e6]
    · intro j r hjr hp
      refine Or.inr ⟨r, hjr, ?_⟩
      have h6 := (itemPred_true_iff it r).mp hp
      simp only [rowTouched, Bool.or_eq_true, List.any_eq_true]
      exact Or.inl (Or.inl (Or.inr ⟨batch, hbatch, ⟨it, hit, by simp [h6]⟩⟩))
  have inv5 : FrameInv (touchedT records mm up ip qp tp)
      (CellNamed records mm up ip qp tp) records rec5 := by
    refine runPhase_inv ?_ inv4 h4
    intro batch hbatch cur cur2 hic hs
    refine runPhase_inv ?_ hic hs
    intro a ha cur3 cur4 hic2 hs2
    refine phaseStep_frame a hWhigh ?_ ?_ ?_ hic2 hs2
    · intro j r hjr hp u hu
      obtain ⟨h7, h1b⟩ := (quizPred_true_iff a r).mp hp
      simp [quizUpdates] at hu
      rcases hu with rfl | rfl | rfl | rfl <;>
        exact Or.inr ⟨r, hjr, Or.inr (Or.inr (Or.inr (Or.inl ⟨batch, hbatch, a, ha,
          h7, h1b, by norm_num⟩)))⟩
    · intro r1 r2 e0 e1 e6 e7 e8
      unfold quizPred getU
      rw [e7, e1]
    · intro j r hjr hp
      refine Or.inr ⟨r, hjr, ?_⟩
      obtain ⟨h7, h1b⟩ := (quizPred_true_iff a r).mp hp
      simp only [rowTouched, Bool.or_eq_true, List.any_eq_true]
      exact Or.inl (Or.inr ⟨batch, hbatch, ⟨a, ha, by simp [h7, h1b]⟩⟩)
  have inv6 : FrameInv (touchedT records mm up ip qp tp)
      (CellNamed records mm up ip qp tp) records rec6 := by
    refine runPhase_inv ?_ inv5 h5
    intro batch hbatch cur cur2 hic hs
    refine runPhase_inv ?_ hic hs
    intro a ha cur3 cur4 hic2 hs2
    refine phaseStep_frame a hWhigh ?_ ?_ ?_ hic2 hs2
    · intro j r hjr hp u hu
      obtain ⟨h8, h1b⟩ := (testPred_true_iff a r).mp hp
      simp [testUpdates] at hu
      rcases hu with rfl | rfl | rfl | rfl <;>
        exact Or.inr ⟨r, hjr, Or.inr (Or.inr (Or.inr (Or.inr ⟨batch, hbatch, a, ha,
          h8, h1b, by norm_num⟩)))⟩
    · intro r1 r2 e0 e1 e6 e7 e8
      unfold testPred getU
      rw [e8, e1]
    · intro j r hjr hp
      refine Or.inr ⟨r, hjr, ?_⟩
      obtain ⟨h8, h1b⟩ := (testPred_true_iff a r).mp hp
      simp only [rowTouched, Bool.or_eq_true, List.any_eq_true]
      exact Or.inr ⟨batch, hbatch, ⟨a, ha, by simp [h8, h1b]⟩⟩
  obtain ⟨hlen, hrowlen, hcells, hun⟩ := inv6
  refine ⟨rfl, hlen, hrowlen, hcells, ?_, ?_⟩
  · intro j i hi
    refine hcells j i ?_
    intro hw
    have h19 := cellNamed_high hw
    unfold NonMut at hi
    omega
  · intro j r hjr hj0 htouch
    have hnT : ¬ touchedT records mm up ip qp tp j := by
      rintro (rfl | ⟨r2, hr2, ht2⟩)
      · exact hj0 rfl
      · rw [hjr] at hr2
        have he := Option.some.inj hr2
        rw [← he] at ht2
        rw [htouch] at ht2
        cases ht2
    rw [hun j hnT, hjr]

/-- The table after updating `[c1r0, c1r1]` with overall mastery `(7, 9)`
and no other inputs: only cells 13 and 14 of row 0 changed. -/
def c8out : List Row :=
  [["P1", "TopicQuiz", "1", "Quiz A", "quiz-a", "/quiz-a", "", "other", "u1",
    "Unit", "U", "u", "/u", "7", "9", "", "", "", "", ""],
   c1r1]

/-- Witness for C8 on a two-row table with only the overall-mastery input:
header, row count and widths preserved, every cell other than the named
cells (13, 14) of row 0 unchanged — including row 0's cells 15..19 — and
the unmatched row 1 wholly unchanged. -/
theorem c8_update_column_isolation_witness :
    c1hdr = c1hdr ∧
    c8out.length = [c1r0, c1r1].length ∧
    (∀ j : Nat, (c8out[j]?).map (fun r => r.length) =
      ([c1r0, c1r1][j]?).map (fun r => r.length)) ∧
    (∀ j i, ¬ CellNamed [c1r0, c1r1] [] [] [] [] [] j i →
      cellAt c8out j i = cellAt [c1r0, c1r1] j i) ∧
    (∀ j i, NonMut i → cellAt c8out j i = cellAt [c1r0, c1r1] j i) ∧
    (∀ j r, [c1r0, c1r1][j]? = some r → j ≠ 0 →
      rowTouched [] [] [] [] [] r = false → c8out[j]? = some r) :=
  c8_update_column_isolation c1hdr [c1r0, c1r1] ⟨7, 9⟩ [] [] [] [] [] c1hdr c8out rfl

end Khan
